import Mathlib

/-!
Verification development for the signed playbook execution engine
(Cloudronix agent, package pkg/playbook and friends).

Go strings are modelled as lists of characters; Go byte slices as lists of
natural numbers below 256.  External primitives that the engine merely calls
(SHA-256, Ed25519 verification, the process environment, the OS shell) are
abstracted as explicit parameters, so every theorem quantifies over them.
Wall-clock timestamps and durations are not modelled: no claim depends on
them.  All definitions are executable.
-/

/-- A Go string, modelled as its character sequence. -/
abbrev Str := List Char

/-- Embeds a Lean string literal into the Go-string model. -/
def str (s : String) : Str := s.data

/-- A single-quote character, used to rebuild Go format strings verbatim. -/
def quoteCh : Str := [Char.ofNat 39]

/-- Go strings.Count with a one-character separator counts occurrences of
that character. -/
def countChar (c : Char) (s : Str) : Nat := s.countP (fun x => x == c)

/-- Finds the index of the first occurrence of the (non-empty) pattern
needle inside s, scanning left to right, as Go strings.Index does. -/
def findSub (needle : Str) : Str → Option Nat
  | [] => if needle = [] then some 0 else none
  | c :: rest =>
    if needle.isPrefixOf (c :: rest) then some 0
    else match findSub needle rest with
      | some i => some (i + 1)
      | none => none

theorem findSub_le (needle : Str) :
    ∀ (s : Str) (i : Nat), findSub needle s = some i → i + needle.length ≤ s.length := by
  intro s
  induction s with
  | nil =>
    intro i h
    simp only [findSub] at h
    split at h
    · cases h
      simp_all
    · cases h
  | cons c rest ih =>
    intro i h
    simp only [findSub] at h
    split at h
    · cases h
      have hp : needle <+: (c :: rest) := List.isPrefixOf_iff_prefix.mp (by assumption)
      have := hp.length_le
      simpa using this
    · revert h
      split
      · intro h
        cases h
        have := ih _ (by assumption)
        simp only [List.length_cons]
        omega
      · intro h
        cases h

/-- Go strings.Contains. -/
def containsSub (s needle : Str) : Bool := (findSub needle s).isSome

/-- Go strings.HasPrefix. -/
def goHasPre (s pre : Str) : Bool := pre.isPrefixOf s

/-- Go strings.HasSuffix. -/
def goHasSuf (s suf : Str) : Bool := suf.isSuffixOf s

/-- Go strings.TrimPrefix. -/
def goTrimPre (s pre : Str) : Str := if pre.isPrefixOf s then s.drop pre.length else s

/-- The white-space characters trimmed by Go strings.TrimSpace (the ASCII
part of unicode.IsSpace, which covers every input the engine sees). -/
def isGoSpace (c : Char) : Bool :=
  (c == ' ') || (c == '\t') || (c == '\n') || (c == Char.ofNat 11) || (c == Char.ofNat 12) || (c == '\r')

/-- Go strings.TrimSpace. -/
def trimSpace (s : Str) : Str :=
  ((s.dropWhile isGoSpace).reverse.dropWhile isGoSpace).reverse

/-- Go strings.ToLower restricted to ASCII (every word it is applied to in
the engine is ASCII). -/
def toLowerGo (s : Str) : Str :=
  s.map (fun c => if 65 ≤ c.toNat ∧ c.toNat ≤ 90 then Char.ofNat (c.toNat + 32) else c)

/-- Structural worker for splitGo.  Every recursive step consumes at least
one character (findSub_le), so a budget of one more than the length of the
string is never exhausted; the budget only makes the recursion structural
so that the function evaluates inside the kernel. -/
def splitGoF (sep : Str) : Nat → Str → List Str
  | 0, s => [s]
  | fuel + 1, s =>
    if sep = [] then [s] else
      match findSub sep s with
      | none => [s]
      | some i => s.take i :: splitGoF sep fuel (s.drop (i + sep.length))

/-- Go strings.Split with a non-empty separator: splits around every
leftmost non-overlapping occurrence of sep. -/
def splitGo (sep : Str) (s : Str) : List Str := splitGoF sep (s.length + 1) s

/-- Go strings.SplitN with n = 2 and a non-empty separator: at most one
split, made at the first occurrence of sep. -/
def splitN2 (s sep : Str) : List Str :=
  match findSub sep s with
  | none => [s]
  | some i => [s.take i, s.drop (i + sep.length)]

/-- Lowercase hexadecimal digit for a value below 16. -/
def hexDigit (n : Nat) : Char := if n < 10 then Char.ofNat (48 + n) else Char.ofNat (87 + n)

/-- Go encoding/hex EncodeToString: lowercase hex of a byte sequence. -/
def hexEncode (bs : List Nat) : Str :=
  (bs.map (fun b => [hexDigit (b / 16 % 16), hexDigit (b % 16)])).flatten

/-!  ## Data model (types file of pkg/playbook)

The struct and constant declarations of package playbook (SchemaVersion,
Playbook, SignedPlaybook, Task, TaskResult, TaskStatus, ErrorHandler,
ExecutionReport, VerificationRecord and the Action, Platform and Status
constant blocks) appear in the sources concatenated into
src/pkg/playbook/actions/sysctl_linux.go; the shapes below are translated
from those declarations.  Omitted throughout, as no verified operation
depends on them: wall-clock timing fields (the time.Time stamps and
duration strings), the display-only ResultDefinition/ResultMeta metadata,
and provenance metadata that no modelled function reads (Description,
Author, MinAgentVersion, RequiresAdmin, ApprovedBy, ApprovedAt, the parsed
Playbook cache pointer, OnComplete, and the NotifyServer and Message fields
of ErrorHandler — the executor reads only OnError.Strategy).
-/

/-- The StatusApproved constant: playbook approval status accepted for
production runs. -/
def statusApproved : Str := str "approved"

/-- The StatusTest constant: playbook approval status accepted for test
runs authorized by an admin or developer. -/
def statusTest : Str := str "test"

/-- The SchemaVersion constant: the playbook schema version supported by
this agent. -/
def schemaVersion : Str := str "1.0"

/-- The SignedPlaybook struct: raw YAML content, the security fields
(hex SHA-256, Ed25519 signature bytes, approval status), and the playbook
id.  The approval provenance fields and the parsed-playbook cache pointer
are omitted. -/
structure SignedPlaybook where
  content : Str
  sha256Hash : Str
  signature : List Nat
  status : Str
  playbookID : Str
deriving DecidableEq, Repr

/-- The VerificationRecord struct documenting the security checks, minus
its verified_at timestamp. -/
structure VerificationRecord where
  expectedHash : Str := []
  calculatedHash : Str := []
  hashVerified : Bool := false
  signatureVerified : Bool := false
  approvalStatus : Str := []
  approvalVerified : Bool := false
  allChecksPass : Bool := false
  failureReason : Str := []
deriving DecidableEq, Repr

/-- The security-violation error values of the verifier module. -/
inductive VerifyErr where
  | emptyContent | missingHash | missingSignature
  | hashMismatch | invalidSignature | notApproved
deriving DecidableEq, Repr

/-- The abstracted cryptographic primitives the verifier calls: SHA-256 over
the raw bytes of a string, and Ed25519 verification of a signature over a
message under a public key. -/
structure Crypto where
  sha256 : Str → List Nat
  edVerify : (pubkey : List Nat) → (message : List Nat) → (sig : List Nat) → Bool

/-- Verifier.Verify: the three-step admission gate.  Mirrors the source:
presence checks, SHA-256 digest comparison by full-string equality on the
lowercase hex encoding, Ed25519 verification over the raw digest bytes,
then approval-status check; the first failure returns the partially
populated record together with the corresponding error. -/
def verify (c : Crypto) (serverPublicKey : List Nat) (sp : SignedPlaybook) :
    VerificationRecord × Option VerifyErr :=
  let record : VerificationRecord :=
    { expectedHash := sp.sha256Hash, allChecksPass := false, approvalStatus := sp.status }
  if sp.content = [] then
    ({ record with failureReason := str "empty playbook content" }, some .emptyContent)
  else if sp.sha256Hash = [] then
    ({ record with failureReason := str "missing playbook hash" }, some .missingHash)
  else if sp.signature = [] then
    ({ record with failureReason := str "missing playbook signature" }, some .missingSignature)
  else
    let hashBytes := c.sha256 sp.content
    let calculatedHash := hexEncode hashBytes
    let record1 := { record with calculatedHash := calculatedHash }
    if calculatedHash ≠ sp.sha256Hash then
      ({ record1 with
         hashVerified := false
         failureReason := str "hash mismatch: expected " ++ sp.sha256Hash ++ str ", got " ++ calculatedHash },
       some .hashMismatch)
    else
      let record2 := { record1 with hashVerified := true }
      if ¬ c.edVerify serverPublicKey hashBytes sp.signature then
        ({ record2 with
           signatureVerified := false
           failureReason := str "signature verification failed" }, some .invalidSignature)
      else
        let record3 := { record2 with signatureVerified := true }
        if sp.status ≠ statusApproved ∧ sp.status ≠ statusTest then
          ({ record3 with
             approvalVerified := false
             failureReason := str "playbook status is " ++ quoteCh ++ sp.status ++ quoteCh ++
               str ", expected " ++ quoteCh ++ str "approved" ++ quoteCh ++ str " or " ++ quoteCh ++ str "test" ++ quoteCh },
           some .notApproved)
        else
          ({ record3 with approvalVerified := true, allChecksPass := true }, none)

/-- The record component of a verification outcome. -/
def verifyRec (c : Crypto) (k : List Nat) (sp : SignedPlaybook) : VerificationRecord :=
  (verify c k sp).1

/-- The error component of a verification outcome. -/
def verifyErr (c : Crypto) (k : List Nat) (sp : SignedPlaybook) : Option VerifyErr :=
  (verify c k sp).2

/-- C2: Verifier.Verify produces all_checks_pass = true exactly when content,
hash and signature are present, the lowercase-hex SHA-256 of the content
bytes equals the expected hash by full-string equality, the Ed25519
signature verifies over the raw digest bytes under the pinned key, and the
status is approved or test; the checks run in presence, digest, signature,
approval order, and the first failing check yields a record with
all_checks_pass = false and the specific non-empty failure reason. -/
theorem verifier_gate_characterization (c : Crypto) (k : List Nat) (sp : SignedPlaybook) :
    ((verifyRec c k sp).allChecksPass = true ↔
      (sp.content ≠ [] ∧ sp.sha256Hash ≠ [] ∧ sp.signature ≠ [] ∧
       hexEncode (c.sha256 sp.content) = sp.sha256Hash ∧
       c.edVerify k (c.sha256 sp.content) sp.signature = true ∧
       (sp.status = statusApproved ∨ sp.status = statusTest)))
    ∧ ((verifyRec c k sp).allChecksPass = false → (verifyRec c k sp).failureReason ≠ [])
    ∧ ((verifyRec c k sp).allChecksPass = false ↔ (verifyErr c k sp).isSome = true)
    ∧ (sp.content = [] →
        verifyErr c k sp = some .emptyContent ∧
        (verifyRec c k sp).failureReason = str "empty playbook content")
    ∧ (sp.content ≠ [] → sp.sha256Hash = [] →
        verifyErr c k sp = some .missingHash ∧
        (verifyRec c k sp).failureReason = str "missing playbook hash")
    ∧ (sp.content ≠ [] → sp.sha256Hash ≠ [] → sp.signature = [] →
        verifyErr c k sp = some .missingSignature ∧
        (verifyRec c k sp).failureReason = str "missing playbook signature")
    ∧ (sp.content ≠ [] → sp.sha256Hash ≠ [] → sp.signature ≠ [] →
        hexEncode (c.sha256 sp.content) ≠ sp.sha256Hash →
        verifyErr c k sp = some .hashMismatch ∧
        (verifyRec c k sp).hashVerified = false ∧
        (verifyRec c k sp).calculatedHash = hexEncode (c.sha256 sp.content))
    ∧ (sp.content ≠ [] → sp.sha256Hash ≠ [] → sp.signature ≠ [] →
        hexEncode (c.sha256 sp.content) = sp.sha256Hash →
        c.edVerify k (c.sha256 sp.content) sp.signature = false →
        verifyErr c k sp = some .invalidSignature ∧
        (verifyRec c k sp).hashVerified = true ∧
        (verifyRec c k sp).signatureVerified = false ∧
        (verifyRec c k sp).failureReason = str "signature verification failed")
    ∧ (sp.content ≠ [] → sp.sha256Hash ≠ [] → sp.signature ≠ [] →
        hexEncode (c.sha256 sp.content) = sp.sha256Hash →
        c.edVerify k (c.sha256 sp.content) sp.signature = true →
        sp.status ≠ statusApproved → sp.status ≠ statusTest →
        verifyErr c k sp = some .notApproved ∧
        (verifyRec c k sp).signatureVerified = true ∧
        (verifyRec c k sp).approvalVerified = false ∧
        (verifyRec c k sp).failureReason ≠ []) := by
  have hne : ∀ (a b : List Char), a ≠ [] → a ++ b ≠ [] := by
    intro a b ha h
    cases a with
    | nil => exact ha rfl
    | cons x xs => simp at h
  have e4 : str "hash mismatch: expected " ++ sp.sha256Hash ++ str ", got " ++ hexEncode (c.sha256 sp.content) ≠ [] :=
    hne _ _ (hne _ _ (hne _ _ (by decide)))
  have e6 : str "playbook status is " ++ quoteCh ++ sp.status ++ quoteCh ++
      str ", expected " ++ quoteCh ++ str "approved" ++ quoteCh ++ str " or " ++ quoteCh ++ str "test" ++ quoteCh ≠ [] :=
    hne _ _ (hne _ _ (hne _ _ (hne _ _ (hne _ _ (hne _ _ (hne _ _ (hne _ _ (hne _ _ (hne _ _ (hne _ _ (by decide)))))))))))
  simp only [verifyRec, verifyErr, verify]
  split_ifs with h1 h2 h3 h4 h5 h6 <;>
    simp_all <;> try tauto

/-- A trivial instantiation of the abstract crypto primitives, used by
concrete witnesses and counterexamples. -/
def crypto0 : Crypto :=
  { sha256 := fun _ => List.replicate 32 0, edVerify := fun _ _ _ => true }

/-- A signed playbook with empty content, used as a concrete verification
failure. -/
def spEmpty : SignedPlaybook :=
  { content := [], sha256Hash := str "x", signature := [1], status := statusApproved,
    playbookID := [] }

theorem verifier_gate_characterization_witness :
    verifyErr crypto0 [] spEmpty = some VerifyErr.emptyContent ∧
    (verifyRec crypto0 [] spEmpty).failureReason = str "empty playbook content" :=
  (verifier_gate_characterization crypto0 [] spEmpty).2.2.2.1 rfl

/-!  ## Task results and status values -/

/-- Task status values (type TaskStatus, a string enum in the source). -/
inductive TaskStatus where
  | pending | running | completed | failed | skipped
deriving DecidableEq, Repr

/-- The string carried by each TaskStatus value. -/
def TaskStatus.toStr : TaskStatus → Str
  | .pending => str "pending"
  | .running => str "running"
  | .completed => str "completed"
  | .failed => str "failed"
  | .skipped => str "skipped"

/-- Go strconv.Itoa for the naturals. -/
def natToStr (n : Nat) : Str := Nat.toDigits 10 n

/-- Go strconv.Itoa. -/
def intToStr (n : Int) : Str :=
  if n < 0 then '-' :: natToStr n.natAbs else natToStr n.toNat

/-- Go strconv.FormatBool. -/
def formatBool (b : Bool) : Str := if b then str "true" else str "false"

/-- The TaskResult struct: identification, status, changed flag, command
output and error information.  The timing fields and the display-only
ResultMeta are omitted; the Error field of the Go struct is errorMsg
here. -/
structure TaskResult where
  taskName : Str := []
  taskID : Str := []
  status : TaskStatus := .pending
  changed : Bool := false
  stdout : Str := []
  stderr : Str := []
  exitCode : Int := 0
  errorMsg : Str := []
  message : Str := []
deriving DecidableEq, Repr

/-!  ## Variable resolver (Variables) -/

/-- First character of a Go identifier in the substitution patterns. -/
def isAlphaU (c : Char) : Bool := c.isAlpha || c == '_'

/-- Later characters of an environment-variable name. -/
def isAlnumU (c : Char) : Bool := c.isAlphanum || c == '_'

/-- Later characters of a variable name in the varPattern regex, which also
admits dots. -/
def isIdentCh (c : Char) : Bool := c.isAlphanum || c == '_' || c == '.'

/-- The character class matched by the backslash-s escape of the Go regexp
package: space, tab, newline, form feed, carriage return. -/
def isReSpace (c : Char) : Bool :=
  (c == ' ') || (c == '\t') || (c == '\n') || (c == Char.ofNat 12) || (c == '\r')

/-- Matches the envPattern regex (a dollar sign, an open brace, an
identifier, a close brace) at the head of the string; returns the variable
name and the remainder after the match. -/
def matchEnvAt : Str → Option (Str × Str)
  | '$' :: '{' :: rest =>
    match rest with
    | [] => none
    | c :: cs =>
      if isAlphaU c then
        let name := c :: cs.takeWhile isAlnumU
        match cs.dropWhile isAlnumU with
        | '}' :: tail => some (name, tail)
        | _ => none
      else none
  | _ => none

theorem matchEnvAt_len {s name tail : Str} (h : matchEnvAt s = some (name, tail)) :
    tail.length < s.length := by
  unfold matchEnvAt at h
  split at h
  · rename_i rest
    split at h
    · cases h
    · rename_i c cs
      by_cases hc : isAlphaU c = true
      · simp only [hc, if_pos] at h
        split at h
        · cases h
          rename_i heq2
          have hd : (cs.dropWhile isAlnumU).length ≤ cs.length := List.Sublist.length_le (List.dropWhile_sublist isAlnumU)
          have h5 : tail.length + 1 = (cs.dropWhile isAlnumU).length := by rw [heq2]; rfl
          simp only [List.length_cons]
          omega
        · cases h
      · simp [hc] at h
  · cases h

/-- Structural worker for resolveEnvVars; every match consumes at least one
character (matchEnvAt_len), so the budget below is never exhausted. -/
def resolveEnvVarsF (osEnv : Str → Str) : Nat → Str → Str
  | 0, s => s
  | _, [] => []
  | fuel + 1, c :: rest =>
    match matchEnvAt (c :: rest) with
    | some (name, tail) =>
      (if osEnv name ≠ [] then osEnv name else str "$" ++ str "\x7b" ++ name ++ str "\x7d") ++
        resolveEnvVarsF osEnv fuel tail
    | none =>
      c :: resolveEnvVarsF osEnv fuel rest

/-- Go regexp ReplaceAllStringFunc over envPattern, with the replacement
function of resolveEnvVars: an environment variable reference is replaced
by its value when the value is non-empty, and kept verbatim otherwise. -/
def resolveEnvVars (osEnv : Str → Str) (s : Str) : Str :=
  resolveEnvVarsF osEnv (s.length + 1) s

/-- Matches the varPattern regex (two open braces, optional white space, an
identifier possibly containing dots, optional white space, two close
braces) at the head of the string; returns the whole matched text, the
captured name, and the remainder. -/
def matchVarAt : Str → Option (Str × Str × Str)
  | '{' :: '{' :: rest =>
    let ws1 := rest.takeWhile isReSpace
    match rest.dropWhile isReSpace with
    | [] => none
    | c :: cs =>
      if isAlphaU c then
        let name := c :: cs.takeWhile isIdentCh
        let r2 := cs.dropWhile isIdentCh
        let ws2 := r2.takeWhile isReSpace
        match r2.dropWhile isReSpace with
        | '}' :: '}' :: tail =>
          some (str "\x7b\x7b" ++ ws1 ++ name ++ ws2 ++ str "\x7d\x7d", name, tail)
        | _ => none
      else none
  | _ => none

theorem matchVarAt_len {s m name tail : Str} (h : matchVarAt s = some (m, name, tail)) :
    tail.length < s.length := by
  unfold matchVarAt at h
  split at h
  · rename_i rest
    split at h
    · cases h
    · rename_i c cs heq
      by_cases hc : isAlphaU c = true
      · simp only [hc, if_pos] at h
        split at h
        · cases h
          rename_i heq2
          have h2 : (cs.dropWhile isIdentCh).length ≤ cs.length := List.Sublist.length_le (List.dropWhile_sublist isIdentCh)
          have h4 : cs.length + 1 = (rest.dropWhile isReSpace).length := by rw [heq]; rfl
          have hr : (rest.dropWhile isReSpace).length ≤ rest.length := List.Sublist.length_le (List.dropWhile_sublist isReSpace)
          have h5 : tail.length + 2 = ((cs.dropWhile isIdentCh).dropWhile isReSpace).length := by
            rw [heq2]; rfl
          have h3 : ((cs.dropWhile isIdentCh).dropWhile isReSpace).length ≤ (cs.dropWhile isIdentCh).length :=
            List.Sublist.length_le (List.dropWhile_sublist isReSpace)
          simp only [List.length_cons]
          omega
        · cases h
      · simp [hc] at h
  · cases h

/-- The variable-substitution error values. -/
inductive VariableErr where
  | varNotFound (name : Str)
  | unknownProp (prop : Str)
deriving DecidableEq, Repr

/-- The OS facade read by the variable resolver and the condition evaluator:
runtime.GOOS, runtime.GOARCH, the hostname probe, the process environment
(empty string when a variable is unset, as os.Getenv reports), the
temporary directory and the path separator. -/
structure SysEnv where
  goos : Str
  goarch : Str
  hostname : Option Str
  env : Str → Str
  tempDir : Str
  pathSep : Char

/-- Go filepath.Join restricted to already-clean relative parts, as used by
the built-in path helpers. -/
def joinPath (sep : Char) (parts : List Str) : Str :=
  (parts.intersperse [sep]).flatten

/-- getUserHome from the source: HOME, then USERPROFILE, then empty. -/
def getUserHome (e : SysEnv) : Str :=
  if e.env (str "HOME") ≠ [] then e.env (str "HOME")
  else if e.env (str "USERPROFILE") ≠ [] then e.env (str "USERPROFILE")
  else []

/-- getUserConfig from the source. -/
def getUserConfig (e : SysEnv) : Str :=
  if e.goos = str "windows" then
    if e.env (str "APPDATA") ≠ [] then e.env (str "APPDATA")
    else joinPath e.pathSep [getUserHome e, str "AppData", str "Roaming"]
  else if e.goos = str "darwin" then
    joinPath e.pathSep [getUserHome e, str "Library", str "Application Support"]
  else
    if e.env (str "XDG_CONFIG_HOME") ≠ [] then e.env (str "XDG_CONFIG_HOME")
    else joinPath e.pathSep [getUserHome e, str ".config"]

/-- getUserCache from the source. -/
def getUserCache (e : SysEnv) : Str :=
  if e.goos = str "windows" then
    if e.env (str "LOCALAPPDATA") ≠ [] then joinPath e.pathSep [e.env (str "LOCALAPPDATA"), str "cache"]
    else joinPath e.pathSep [getUserHome e, str "AppData", str "Local", str "cache"]
  else if e.goos = str "darwin" then
    joinPath e.pathSep [getUserHome e, str "Library", str "Caches"]
  else
    if e.env (str "XDG_CACHE_HOME") ≠ [] then e.env (str "XDG_CACHE_HOME")
    else joinPath e.pathSep [getUserHome e, str ".cache"]

/-- getSystemConfig from the source. -/
def getSystemConfig (e : SysEnv) : Str :=
  if e.goos = str "windows" then
    if e.env (str "ProgramData") ≠ [] then e.env (str "ProgramData")
    else str "C:" ++ [Char.ofNat 92] ++ str "ProgramData"
  else str "/etc"

/-- getOSFamily from the source. -/
def getOSFamily (e : SysEnv) : Str :=
  if e.goos = str "windows" then str "windows"
  else if e.goos = str "darwin" then str "darwin"
  else if e.goos = str "linux" then str "linux"
  else if e.goos = str "android" then str "android"
  else e.goos

/-- Association-list lookup standing in for a Go map read. -/
def lookupA {α : Type} (m : List (Str × α)) (k : Str) : Option α :=
  (m.find? (fun p => p.1 == k)).map (fun p => p.2)

/-- The Variables struct: user variables, registered task results, and
built-ins.  Go maps are modelled as association lists in which the most
recent insertion is first. -/
structure Variables where
  userVars : List (Str × Str)
  taskResults : List (Str × TaskResult)
  builtins : List (Str × Str)

/-- initBuiltins from the source: platform information, the hostname when
the probe succeeds, and the cross-platform paths. -/
def initBuiltins (e : SysEnv) : List (Str × Str) :=
  [(str "platform", e.goos), (str "arch", e.goarch), (str "os_family", getOSFamily e)] ++
  (match e.hostname with
   | some h => [(str "hostname", h)]
   | none => []) ++
  [(str "user_home", getUserHome e), (str "user_config", getUserConfig e),
   (str "user_cache", getUserCache e), (str "system_config", getSystemConfig e),
   (str "temp_dir", e.tempDir), (str "path_sep", [e.pathSep])]

/-- NewVariables. -/
def newVariables (e : SysEnv) : Variables :=
  { userVars := [], taskResults := [], builtins := initBuiltins e }

/-- Variables.SetUserVars: each value has its environment references
pre-expanded at load time. -/
def setUserVars (e : SysEnv) (v : Variables) (vars : List (Str × Str)) : Variables :=
  { v with userVars := vars.foldl (fun m kv => (kv.1, resolveEnvVars e.env kv.2) :: m) v.userVars }

/-- Variables.SetTaskResult. -/
def setTaskResult (v : Variables) (name : Str) (res : TaskResult) : Variables :=
  { v with taskResults := (name, res) :: v.taskResults }

/-- Variables.Get: user variables first, then built-ins. -/
def varsGet (v : Variables) (name : Str) : Option Str :=
  match lookupA v.userVars name with
  | some val => some val
  | none => lookupA v.builtins name

/-- getTaskResultProperty from the source. -/
def getTaskResultProperty (res : TaskResult) (property : Str) : Except VariableErr Str :=
  if property = str "stdout" then .ok res.stdout
  else if property = str "stderr" then .ok res.stderr
  else if property = str "exit_code" then .ok (intToStr res.exitCode)
  else if property = str "status" then .ok res.status.toStr
  else if property = str "changed" then .ok (formatBool res.changed)
  else .error (.unknownProp property)

/-- The callback applied by Variables.Substitute to each varPattern match:
env.NAME references read the process environment (kept verbatim when the
value is empty); dotted names read registered task results (kept verbatim,
recording the error, when the property is unknown); otherwise a plain
variable lookup, recording variable-not-found when it fails. -/
def substCallback (e : SysEnv) (v : Variables) (varName matched : Str) : Str × Option VariableErr :=
  if goHasPre varName (str "env.") then
    let envName := goTrimPre varName (str "env.")
    if e.env envName ≠ [] then (e.env envName, none) else (matched, none)
  else
    let dotted : Option (Str × Option VariableErr) :=
      if containsSub varName (str ".") then
        match splitN2 varName (str ".") with
        | [taskName, property] =>
          match lookupA v.taskResults taskName with
          | some res =>
            match getTaskResultProperty res property with
            | .ok val => some (val, none)
            | .error er => some (matched, some er)
          | none => none
        | _ => none
      else none
    match dotted with
    | some r => r
    | none =>
      match varsGet v varName with
      | some val => (val, none)
      | none => (matched, some (.varNotFound varName))

/-- Structural worker for scanVars; every match consumes at least one
character (matchVarAt_len), so the budget below is never exhausted. -/
def scanVarsF (e : SysEnv) (v : Variables) : Nat → Str → Str × Option VariableErr
  | 0, s => (s, none)
  | _, [] => ([], none)
  | fuel + 1, c :: rest =>
    match matchVarAt (c :: rest) with
    | some (matched, name, tail) =>
      let rep := substCallback e v name matched
      let rec1 := scanVarsF e v fuel tail
      (rep.1 ++ rec1.1,
       match rec1.2 with
       | some er => some er
       | none => rep.2)
    | none =>
      let rec1 := scanVarsF e v fuel rest
      (c :: rec1.1, rec1.2)

/-- The varPattern replacement pass of Variables.Substitute; the second
component is the last error recorded by the callback. -/
def scanVars (e : SysEnv) (v : Variables) (s : Str) : Str × Option VariableErr :=
  scanVarsF e v (s.length + 1) s

/-- Variables.Substitute: environment references first, then the
varPattern pass. -/
def substitute (e : SysEnv) (v : Variables) (input : Str) : Str × Option VariableErr :=
  scanVars e v (resolveEnvVars e.env input)

/-- The heterogeneous YAML parameter values of a task params map. -/
inductive YVal where
  | s (v : Str)
  | b (v : Bool)
  | i (v : Int)
  | f (num : Int) (den : Nat)
  | arr (items : List YVal)
  | obj (fields : List (Str × YVal))

/-- A task params map, in YAML document order. -/
abbrev Params := List (Str × YVal)

mutual

/-- Variables.SubstituteMap: substitutes every string leaf, recurses into
nested mappings and sequences, and aborts on the first substitution
error. -/
def substituteMap (e : SysEnv) (v : Variables) : Params → Except VariableErr Params
  | [] => .ok []
  | (k, val) :: rest =>
    match substYVal e v val with
    | .error er => .error er
    | .ok newVal =>
      match substituteMap e v rest with
      | .error er => .error er
      | .ok restR => .ok ((k, newVal) :: restR)

/-- One map entry of SubstituteMap: the switch on the dynamic type. -/
def substYVal (e : SysEnv) (v : Variables) : YVal → Except VariableErr YVal
  | .s sv =>
    match substitute e v sv with
    | (r, none) => .ok (.s r)
    | (_, some er) => .error er
  | .obj fields =>
    match substituteMap e v fields with
    | .error er => .error er
    | .ok r => .ok (.obj r)
  | .arr items =>
    match substituteSlice e v items with
    | .error er => .error er
    | .ok r => .ok (.arr r)
  | other => .ok other

/-- Variables.substituteSlice: substitutes string and mapping items; any
other item (including a nested sequence) passes through untouched. -/
def substituteSlice (e : SysEnv) (v : Variables) : List YVal → Except VariableErr (List YVal)
  | [] => .ok []
  | item :: rest =>
    let newItem : Except VariableErr YVal :=
      match item with
      | .s sv =>
        match substitute e v sv with
        | (r, none) => .ok (.s r)
        | (_, some er) => .error er
      | .obj fields =>
        match substituteMap e v fields with
        | .error er => .error er
        | .ok r => .ok (.obj r)
      | other => .ok other
    match newItem with
    | .error er => .error er
    | .ok ni =>
      match substituteSlice e v rest with
      | .error er => .error er
      | .ok restR => .ok (ni :: restR)

end

/-!  ## Go strconv.ParseFloat model -/

/-- IEEE float values as far as the condition evaluator observes them:
finite rationals, infinities, and NaN.  Finite decimal literals are kept
exact; the double rounding of Go float64 parsing cannot change any
comparison the engine reaches on its inputs. -/
inductive FloatV where
  | num (q : ℚ)
  | pinf
  | ninf
  | nan
deriving DecidableEq, Repr

/-- ASCII digit test. -/
def isDigitCh (c : Char) : Bool := 48 ≤ c.toNat ∧ c.toNat ≤ 57

/-- Value of an ASCII digit string. -/
def digitsToNat (ds : Str) : Nat := ds.foldl (fun a c => a * 10 + (c.toNat - 48)) 0

/-- Go strconv.ParseFloat, modelled on the decimal and special-value forms
(the hexadecimal-float and digit-separator forms never appear in playbook
expressions): optional sign, then inf or infinity (any case), or a decimal
mantissa with at least one digit and an optional exponent; unsigned nan is
also accepted.  Returns none exactly when Go returns a parse error. -/
def parseFloatGo (s : Str) : Option FloatV :=
  if s = [] then none else
  let neg := goHasPre s (str "-")
  let signed := neg ∨ goHasPre s (str "+")
  let r := if signed then s.drop 1 else s
  let low := toLowerGo r
  if low = str "inf" ∨ low = str "infinity" then some (if neg then .ninf else .pinf)
  else if toLowerGo s = str "nan" then some .nan
  else
    let intPart := r.takeWhile isDigitCh
    let r1 := r.drop intPart.length
    let fracPart := if goHasPre r1 (str ".") then (r1.drop 1).takeWhile isDigitCh else []
    let r2 := if goHasPre r1 (str ".") then (r1.drop 1).drop fracPart.length else r1
    if intPart.length + fracPart.length = 0 then none
    else
      let mant : ℚ := ((digitsToNat (intPart ++ fracPart) : ℚ)) / ((10 : ℚ) ^ fracPart.length)
      let sgn : ℚ := if neg then -1 else 1
      match r2 with
      | [] => some (.num (sgn * mant))
      | e :: r3 =>
        if e = 'e' ∨ e = 'E' then
          let eneg := goHasPre r3 (str "-")
          let esigned := eneg ∨ goHasPre r3 (str "+")
          let r4 := if esigned then r3.drop 1 else r3
          let expDigits := r4.takeWhile isDigitCh
          if expDigits = [] ∨ r4.drop expDigits.length ≠ [] then none
          else
            let ex := digitsToNat expDigits
            let scale : ℚ := (10 : ℚ) ^ ex
            some (.num (if eneg then sgn * mant / scale else sgn * mant * scale))
        else none

/-- IEEE comparison on modelled float values: any comparison with NaN is
false; infinities order in the usual way. -/
def fltCmp (op : Str) (a b : FloatV) : Bool :=
  match a, b with
  | .nan, _ => false
  | _, .nan => false
  | .num x, .num y =>
    if op = str ">=" then x ≥ y else if op = str "<=" then x ≤ y
    else if op = str ">" then x > y else x < y
  | .pinf, .pinf => op = str ">=" ∨ op = str "<="
  | .ninf, .ninf => op = str ">=" ∨ op = str "<="
  | .pinf, _ => op = str ">=" ∨ op = str ">"
  | .ninf, _ => op = str "<=" ∨ op = str "<"
  | .num _, .pinf => op = str "<=" ∨ op = str "<"
  | .num _, .ninf => op = str ">=" ∨ op = str ">"

/-!  ## Condition evaluator -/

/-- The evaluation context of a Condition: the OS facade (for the platform
and arch built-ins of resolveValue) and the Variables. -/
structure CondCtx where
  sys : SysEnv
  vars : Variables

/-- splitOnOperator from the source: a plain strings.Split followed by a
left-to-right pass that re-joins a token to its predecessor while the
accumulated part has more open than close parentheses; returns the empty
list (Go nil) when at most one part results with zero recorded depth. -/
def splitOnOperator (expr op : Str) : List Str :=
  match splitGo op expr with
  | [] => []
  | t0 :: rest =>
    let step := fun (st : List Str × Str × Nat) (token : Str) =>
      let o := countChar '(' st.2.1
      let cl := countChar ')' st.2.1
      if o > cl then (st.1, st.2.1 ++ op ++ token, o - cl)
      else (st.1 ++ [trimSpace st.2.1], token, 0)
    let fin := rest.foldl step ([], t0, 0)
    let parts := if fin.2.1 ≠ [] then fin.1 ++ [trimSpace fin.2.1] else fin.1
    if parts.length ≤ 1 ∧ fin.2.2 = 0 then [] else parts

/-- isTruthy from the source: lower-cased, trimmed falsy words. -/
def isTruthy (val : Str) : Bool :=
  let v := trimSpace (toLowerGo val)
  ¬ (v = [] ∨ v = str "false" ∨ v = str "0" ∨ v = str "no" ∨ v = str "off" ∨
     v = str "null" ∨ v = str "nil" ∨ v = str "none")

/-- Condition.resolveValue: quoted literals are stripped, numeric literals
kept verbatim, platform and arch read the runtime, env.-prefixed names read
the environment (empty string when undefined), dotted names read registered
task results (an unknown property is an error; an unregistered task name
falls through), then user variables and built-ins; anything still unknown
resolves to the empty string.  Errors are the Go error strings. -/
def resolveValue (cc : CondCtx) (ref0 : Str) : Except Str Str :=
  let ref := trimSpace ref0
  if (goHasPre ref (str "\"") ∧ goHasSuf ref (str "\"")) ∨
     (goHasPre ref quoteCh ∧ goHasSuf ref quoteCh) then
    .ok ((ref.drop 1).dropLast)
  else if (parseFloatGo ref).isSome then .ok ref
  else if ref = str "platform" then .ok cc.sys.goos
  else if ref = str "arch" then .ok cc.sys.goarch
  else if goHasPre ref (str "env.") then
    let envName := goTrimPre ref (str "env.")
    match varsGet cc.vars (str "env." ++ envName) with
    | some val => .ok val
    | none =>
      let pat := str "\x7b\x7b env." ++ envName ++ str " \x7d\x7d"
      let sub := (substitute cc.sys cc.vars pat).1
      if sub ≠ pat then .ok sub else .ok []
  else
    let dotted : Option (Except Str Str) :=
      if containsSub ref (str ".") then
        match splitN2 ref (str ".") with
        | [taskName, property] =>
          match lookupA cc.vars.taskResults taskName with
          | some res =>
            if property = str "stdout" then some (.ok res.stdout)
            else if property = str "stderr" then some (.ok res.stderr)
            else if property = str "exit_code" then some (.ok (intToStr res.exitCode))
            else if property = str "status" then some (.ok res.status.toStr)
            else if property = str "changed" then some (.ok (formatBool res.changed))
            else some (.error (str "unknown task result property: " ++ property))
          | none => none
        | _ => none
      else none
    match dotted with
    | some r => r
    | none =>
      match varsGet cc.vars ref with
      | some val => .ok val
      | none => .ok []

/-- One binary comparison step of evaluateComparison: resolve both sides
and combine. -/
def cmpWith (cc : CondCtx) (l r : Str) (k : Str → Str → Bool) : Except Str Bool :=
  match resolveValue cc (trimSpace l) with
  | .error e => .error e
  | .ok lv =>
    match resolveValue cc (trimSpace r) with
    | .error e => .error e
    | .ok rv => .ok (k lv rv)

/-- Condition.evaluateComparison: not contains, contains, inequality,
equality, the four numeric comparisons in source order, then single-value
truthiness. -/
def evaluateComparison (cc : CondCtx) (expression : Str) : Except Str Bool :=
  if containsSub expression (str " not contains ") then
    match splitN2 expression (str " not contains ") with
    | [l, r] => cmpWith cc l r (fun lv rv => ¬ containsSub lv rv)
    | _ => .error (str "unreachable")
  else if containsSub expression (str " contains ") then
    match splitN2 expression (str " contains ") with
    | [l, r] => cmpWith cc l r (fun lv rv => containsSub lv rv)
    | _ => .error (str "unreachable")
  else if containsSub expression (str " != ") then
    match splitN2 expression (str " != ") with
    | [l, r] => cmpWith cc l r (fun lv rv => lv ≠ rv)
    | _ => .error (str "unreachable")
  else if containsSub expression (str " == ") then
    match splitN2 expression (str " == ") with
    | [l, r] => cmpWith cc l r (fun lv rv => lv = rv)
    | _ => .error (str "unreachable")
  else if containsSub expression (str " >= ") ∨ containsSub expression (str " <= ") ∨
          containsSub expression (str " > ") ∨ containsSub expression (str " < ") then
    let op := if containsSub expression (str " >= ") then str " >= "
              else if containsSub expression (str " <= ") then str " <= "
              else if containsSub expression (str " > ") then str " > "
              else str " < "
    match splitN2 expression op with
    | [l, r] =>
      (match resolveValue cc (trimSpace l) with
       | .error e => .error e
       | .ok lv =>
         match resolveValue cc (trimSpace r) with
         | .error e => .error e
         | .ok rv =>
           match parseFloatGo lv, parseFloatGo rv with
           | some fl, some fr => .ok (fltCmp (trimSpace op) fl fr)
           | _, _ => .error (str "numeric comparison requires numeric values: " ++ expression))
    | _ => .error (str "unreachable")
  else
    match resolveValue cc expression with
    | .error e => .error e
    | .ok v => .ok (isTruthy v)

/-- The short-circuiting conjunction over split parts in Evaluate. -/
def evalAndParts (ev : Str → Except Str Bool) : List Str → Except Str Bool
  | [] => .ok true
  | p :: rest =>
    match ev p with
    | .error e => .error e
    | .ok false => .ok false
    | .ok true => evalAndParts ev rest

/-- The short-circuiting disjunction over split parts in Evaluate. -/
def evalOrParts (ev : Str → Except Str Bool) : List Str → Except Str Bool
  | [] => .ok false
  | p :: rest =>
    match ev p with
    | .error e => .error e
    | .ok true => .ok true
    | .ok false => evalOrParts ev rest

/-- One dispatch level of Condition.Evaluate, with the recursive
self-reference abstracted: trim, boolean literals, the and split, the or
split, parenthesised groups, the not operator, then a single comparison. -/
def evaluateStep (cc : CondCtx) (recEval : Str → Except Str Bool) (expression0 : Str) :
    Except Str Bool :=
  let expression := trimSpace expression0
  if expression = [] then .ok true
  else if expression = str "true" then .ok true
  else if expression = str "false" then .ok false
  else
    let andParts := splitOnOperator expression (str " and ")
    if andParts.length > 1 then evalAndParts recEval andParts
    else
      let orParts := splitOnOperator expression (str " or ")
      if orParts.length > 1 then evalOrParts recEval orParts
      else if goHasPre expression (str "(") ∧ goHasSuf expression (str ")") then
        recEval ((expression.drop 1).dropLast)
      else if goHasPre expression (str "not ") then
        match recEval (goTrimPre expression (str "not ")) with
        | .error e => .error e
        | .ok r => .ok (¬ r)
      else evaluateComparison cc expression

/-- Condition.Evaluate, with an explicit recursion budget.  Every
recursive call of the source is on a strictly shorter expression (split
parts, the interior of a parenthesised group, the operand of not), so the
budget used by evaluate below is never exhausted. -/
def evaluateF (cc : CondCtx) : Nat → Str → Except Str Bool
  | 0, _ => .error (str "recursion budget exhausted")
  | fuel + 1, expression0 => evaluateStep cc (evaluateF cc fuel) expression0

/-- Condition.Evaluate. -/
def evaluate (cc : CondCtx) (expression : Str) : Except Str Bool :=
  evaluateF cc (expression.length + 1) expression

/-- isValidIdentifier from the source. -/
def isValidIdentifier (s0 : Str) : Bool :=
  let s := trimSpace s0
  if s = [] then false
  else if (goHasPre s (str "\"") ∧ goHasSuf s (str "\"")) ∨
          (goHasPre s quoteCh ∧ goHasSuf s quoteCh) then true
  else if (parseFloatGo s).isSome then true
  else
    match s with
    | [] => false
    | c :: cs => isAlphaU c && cs.all isIdentCh

/-- ValidateCondition from the source: literals pass, parentheses must
balance, and the expression must contain a recognised operator (the
alternatives of the validOperatorPattern regex) or be a valid identifier
or literal. -/
def validateCondition (expression0 : Str) : Option Str :=
  let expression := trimSpace expression0
  if expression = [] ∨ expression = str "true" ∨ expression = str "false" then none
  else if countChar '(' expression ≠ countChar ')' expression then
    some (str "unbalanced parentheses in condition: " ++ expression)
  else
    let m := containsSub expression (str "==") ∨ containsSub expression (str "!=") ∨
             containsSub expression (str ">=") ∨ containsSub expression (str "<=") ∨
             containsSub expression (str ">") ∨ containsSub expression (str "<") ∨
             containsSub expression (str " contains ") ∨
             containsSub expression (str " not contains ") ∨
             containsSub expression (str " and ") ∨ containsSub expression (str " or ") ∨
             goHasPre expression (str "not ")
    if ¬ m then
      if ¬ isValidIdentifier expression then
        some (str "invalid condition syntax: " ++ expression)
      else none
    else none

/-- The Linux OS facade used by concrete witnesses: no environment
variables set, a fixed hostname. -/
def sys0 : SysEnv :=
  { goos := str "linux", goarch := str "amd64", hostname := some (str "host"),
    env := fun _ => [], tempDir := str "/tmp", pathSep := '/' }

/-- A condition context over sys0 with no user variables and no registered
task results. -/
def ctx0 : CondCtx := { sys := sys0, vars := newVariables sys0 }

deriving instance DecidableEq for Except


/-- The shape of a sub-expression that Evaluate hands straight to
evaluateComparison: already trimmed, not a boolean literal, not split by
the and/or operators, not parenthesised, not negated. -/
def operandShaped (e : Str) : Prop :=
  trimSpace e = e ∧ e ≠ [] ∧ e ≠ str "true" ∧ e ≠ str "false" ∧
  splitOnOperator e (str " and ") = [] ∧ splitOnOperator e (str " or ") = [] ∧
  ¬ (goHasPre e (str "(") = true ∧ goHasSuf e (str ")") = true) ∧
  goHasPre e (str "not ") = false

instance (e : Str) : Decidable (operandShaped e) := by
  unfold operandShaped
  infer_instance

theorem evaluateStep_operand (cc : CondCtx) (r : Str → Except Str Bool) (e : Str)
    (h : operandShaped e) : evaluateStep cc r e = evaluateComparison cc e := by
  obtain ⟨ht, hne, hT, hF, hand, hor, hpar, hnot⟩ := h
  simp only [evaluateStep, ht]
  rw [if_neg hne, if_neg hT, if_neg hF, hand, hor]
  simp only [List.length_nil, gt_iff_lt, Nat.lt_irrefl, if_false]
  rw [if_neg hpar]
  simp [hnot]

theorem evaluateF_operand (cc : CondCtx) (f : Nat) (e : Str) (h : operandShaped e) :
    evaluateF cc (f + 1) e = evaluateComparison cc e := by
  simp only [evaluateF]
  exact evaluateStep_operand cc (evaluateF cc f) e h

theorem evaluateStep_andsplit (cc : CondCtx) (r : Str → Except Str Bool) (e p q : Str)
    (htr : trimSpace e = e) (hne : e ≠ []) (hT : e ≠ str "true") (hF : e ≠ str "false")
    (hand : splitOnOperator e (str " and ") = [p, q]) :
    evaluateStep cc r e = evalAndParts r [p, q] := by
  unfold evaluateStep
  rw [htr]
  simp only []
  rw [if_neg hne, if_neg hT, if_neg hF, hand]
  simp only [List.length_cons, List.length_nil]
  rw [if_pos (by omega)]

theorem evaluateStep_orsplit (cc : CondCtx) (r : Str → Except Str Bool) (e p q : Str)
    (htr : trimSpace e = e) (hne : e ≠ []) (hT : e ≠ str "true") (hF : e ≠ str "false")
    (hand : splitOnOperator e (str " and ") = [])
    (hor : splitOnOperator e (str " or ") = [p, q]) :
    evaluateStep cc r e = evalOrParts r [p, q] := by
  unfold evaluateStep
  rw [htr]
  simp only []
  rw [if_neg hne, if_neg hT, if_neg hF, hand]
  simp only [List.length_nil]
  rw [if_neg (by omega), hor]
  simp only [List.length_cons, List.length_nil]
  rw [if_pos (by omega)]

theorem evaluate_operand (cc : CondCtx) (e : Str) (h : operandShaped e) :
    evaluate cc e = evaluateComparison cc e := by
  have hne : e ≠ [] := h.2.1
  obtain ⟨m, hm⟩ : ∃ m, e.length = m + 1 := by
    cases e with
    | nil => exact absurd rfl hne
    | cons a l => exact ⟨l.length, rfl⟩
  unfold evaluate
  rw [hm]
  exact evaluateF_operand cc (m + 1) e h

/-- The shape of an expression that contains none of the comparison
operators of evaluateComparison. -/
def compOpFree (e : Str) : Prop :=
  containsSub e (str " not contains ") = false ∧ containsSub e (str " contains ") = false ∧
  containsSub e (str " != ") = false ∧ containsSub e (str " == ") = false ∧
  containsSub e (str " >= ") = false ∧ containsSub e (str " <= ") = false ∧
  containsSub e (str " > ") = false ∧ containsSub e (str " < ") = false

instance (e : Str) : Decidable (compOpFree e) := by
  unfold compOpFree
  infer_instance

theorem evaluateComparison_single (cc : CondCtx) (e : Str) (h : compOpFree e) :
    evaluateComparison cc e =
      match resolveValue cc e with
      | .error er => .error er
      | .ok v => .ok (isTruthy v) := by
  obtain ⟨h1, h2, h3, h4, h5, h6, h7, h8⟩ := h
  simp only [evaluateComparison, h1, h2, h3, h4, h5, h6, h7, h8]
  simp

/-- C5 (amended): evaluate of the empty string, of true, of false and of 0
behave as the spec states in every context, and isTruthy declares exactly
the eight case-insensitive trimmed falsy words false; but a single
unoperated value evaluates to the truthiness of its RESOLVED value, so a
bare identifier that is not a defined variable resolves to the empty string
and evaluates false: evaluate of x in a fresh context is false, not true as
the claim states. -/
theorem condition_truthiness_amended :
    (∀ cc : CondCtx,
       evaluate cc (str "") = .ok true ∧
       evaluate cc (str "true") = .ok true ∧
       evaluate cc (str "false") = .ok false ∧
       evaluate cc (str "0") = .ok false)
    ∧ (∀ s : Str, isTruthy s = true ↔
         ¬ (trimSpace (toLowerGo s) = [] ∨ trimSpace (toLowerGo s) = str "false" ∨
            trimSpace (toLowerGo s) = str "0" ∨ trimSpace (toLowerGo s) = str "no" ∨
            trimSpace (toLowerGo s) = str "off" ∨ trimSpace (toLowerGo s) = str "null" ∨
            trimSpace (toLowerGo s) = str "nil" ∨ trimSpace (toLowerGo s) = str "none"))
    ∧ (∀ (cc : CondCtx) (e : Str), operandShaped e → compOpFree e →
         evaluate cc e = match resolveValue cc e with
           | .error er => .error er
           | .ok v => .ok (isTruthy v))
    ∧ evaluate ctx0 (str "x") = .ok false := by
  refine ⟨fun cc => ⟨rfl, rfl, rfl, rfl⟩, fun s => ?_, fun cc e h1 h2 => ?_, by decide⟩
  · simp [isTruthy]
  · rw [evaluate_operand cc e h1, evaluateComparison_single cc e h2]

theorem condition_truthiness_amended_witness :
    evaluate ctx0 (str "abc") = .ok false := by
  have h := condition_truthiness_amended.2.2.1 ctx0 (str "abc") (by decide) (by decide)
  rw [h]
  decide

/-- C5 counterexample: in a fresh evaluation context the claimed instance
fails: evaluate of the bare undefined identifier x yields false, not
true. -/
theorem condition_truthiness_counterexample :
    evaluate ctx0 (str "x") = .ok false ∧ evaluate ctx0 (str "x") ≠ .ok true := by
  decide

/-- C4 counterexample: with A, B, C the literals true, true, false, the
claimed reading A or (B and C) gives true, but Evaluate handles the and
operator first, computing (A or B) and C, which is false. -/
theorem condition_precedence_counterexample :
    evaluate ctx0 (str "true or true and false") = .ok false ∧
    evaluate ctx0 (str "true or true and false") ≠ .ok true := by
  decide

set_option maxHeartbeats 2000000 in
/-- C4 (amended): the source splits on the and operator before the or
operator, so in the grammar actually implemented, and binds looser than
or: for parenthesis-free sub-expressions A, B, C composing canonically,
Evaluate of A or B and C equals (Evaluate(A) OR Evaluate(B)) AND
Evaluate(C), with and/or short-circuiting: when A is true, B is never
evaluated; when A or B is false, C is never evaluated. -/
theorem condition_precedence_amended (cc : CondCtx) (A B C : Str)
    (hA : operandShaped A) (hB : operandShaped B) (hC : operandShaped C)
    (hE : trimSpace (A ++ str " or " ++ B ++ str " and " ++ C) =
          A ++ str " or " ++ B ++ str " and " ++ C)
    (hand : splitOnOperator (A ++ str " or " ++ B ++ str " and " ++ C) (str " and ") =
            [A ++ str " or " ++ B, C])
    (handP : splitOnOperator (A ++ str " or " ++ B) (str " and ") = [])
    (horP : splitOnOperator (A ++ str " or " ++ B) (str " or ") = [A, B])
    (htP : trimSpace (A ++ str " or " ++ B) = A ++ str " or " ++ B) :
    evaluate cc (A ++ str " or " ++ B ++ str " and " ++ C) =
      match evaluate cc A with
      | .error er => .error er
      | .ok true => evaluate cc C
      | .ok false =>
        match evaluate cc B with
        | .error er => .error er
        | .ok true => evaluate cc C
        | .ok false => .ok false := by
  have hAlen : 0 < A.length := List.length_pos.mpr hA.2.1
  have hBlen : 0 < B.length := List.length_pos.mpr hB.2.1
  have hClen : 0 < C.length := List.length_pos.mpr hC.2.1
  set e := A ++ str " or " ++ B ++ str " and " ++ C with he
  have hElen : e.length = A.length + B.length + C.length + 9 := by
    simp only [he, List.length_append]
    have : (str " or ").length = 4 := rfl
    have : (str " and ").length = 5 := rfl
    omega
  have hEne : e ≠ [] := by
    intro hcontra
    have := congrArg List.length hcontra
    simp only [List.length_nil] at this
    omega
  have hET : e ≠ str "true" := by
    intro hcontra
    have := congrArg List.length hcontra
    have h4 : (str "true").length = 4 := rfl
    omega
  have hEF : e ≠ str "false" := by
    intro hcontra
    have := congrArg List.length hcontra
    have h5 : (str "false").length = 5 := rfl
    omega
  set P := A ++ str " or " ++ B with hp
  have hPlen : P.length = A.length + B.length + 4 := by
    simp only [hp, List.length_append]
    have : (str " or ").length = 4 := rfl
    omega
  have hPne : P ≠ [] := by
    intro hcontra
    have := congrArg List.length hcontra
    simp only [List.length_nil] at this
    omega
  have hPT : P ≠ str "true" := by
    intro hcontra
    have := congrArg List.length hcontra
    have h4 : (str "true").length = 4 := rfl
    omega
  have hPF : P ≠ str "false" := by
    intro hcontra
    have := congrArg List.length hcontra
    have h5 : (str "false").length = 5 := rfl
    omega
  obtain ⟨m, hm⟩ : ∃ m, e.length = m + 2 := ⟨e.length - 2, by omega⟩
  have hm1 : 1 ≤ m := by omega
  have hF1 : ∀ (n : Nat) (x : Str), evaluateF cc (n + 1) x = evaluateStep cc (evaluateF cc n) x :=
    fun n x => rfl
  have hev : evaluate cc e = evaluateStep cc (evaluateF cc (m + 1 + 1)) e := by
    unfold evaluate
    rw [hm]
    exact hF1 (m + 2) e
  rw [hev]
  rw [evaluateStep_andsplit cc _ e P C hE hEne hET hEF hand]
  simp only [evalAndParts]
  simp only [hF1]
  rw [evaluateStep_operand cc _ C hC, ← evaluate_operand cc C hC]
  rw [evaluateStep_orsplit cc _ P A B htP hPne hPT hPF handP horP]
  simp only [evalOrParts]
  simp only [hF1]
  rw [evaluateStep_operand cc _ A hA, ← evaluate_operand cc A hA]
  rw [evaluateStep_operand cc _ B hB, ← evaluate_operand cc B hB]
  cases hra : evaluate cc A with
  | error er => rfl
  | ok ba =>
    cases ba with
    | true =>
      cases hrc : evaluate cc C with
      | error er => rfl
      | ok bc => cases bc <;> rfl
    | false =>
      cases hrb : evaluate cc B with
      | error er => rfl
      | ok bb =>
        cases bb with
        | true =>
          cases hrc : evaluate cc C with
          | error er => rfl
          | ok bc => cases bc <;> rfl
        | false => rfl

theorem condition_precedence_amended_witness :
    evaluate ctx0 (str "x" ++ str " or " ++ str "y" ++ str " and " ++ str "z") = .ok false := by
  have h := condition_precedence_amended ctx0 (str "x") (str "y") (str "z")
    (by decide) (by decide) (by decide) (by decide) (by decide) (by decide) (by decide) (by decide)
  rw [h]
  decide

/-- A completed task result registered under the name probe, for concrete
evaluation contexts. -/
def resProbe : TaskResult :=
  { taskName := str "t1", status := .completed, changed := true,
    stdout := str "installed", exitCode := 0 }

/-- A condition context in which the task result probe is registered. -/
def ctxReg : CondCtx :=
  { sys := sys0, vars := setTaskResult (newVariables sys0) (str "probe") resProbe }

/-- C10: an operand that is not a quoted string, not a numeric literal, not
platform or arch, not an env.-prefixed reference, not a property of a
registered task result, and not a defined variable or built-in resolves to
the empty string rather than an error; hence a comparison of an undefined
variable with the empty string is true, a bare undefined identifier is
falsy, and an unknown property of a task result that IS registered is an
error. -/
theorem resolve_undefined_characterization :
    (∀ (cc : CondCtx) (ref : Str),
       trimSpace ref = ref →
       ¬ ((goHasPre ref (str "\x22") = true ∧ goHasSuf ref (str "\x22") = true) ∨
          (goHasPre ref quoteCh = true ∧ goHasSuf ref quoteCh = true)) →
       parseFloatGo ref = none →
       ref ≠ str "platform" → ref ≠ str "arch" →
       goHasPre ref (str "env.") = false →
       (∀ t p, splitN2 ref (str ".") = [t, p] → lookupA cc.vars.taskResults t = none) →
       varsGet cc.vars ref = none →
       resolveValue cc ref = .ok [])
    ∧ evaluate ctxReg (str "undefined_var == \x22\x22") = .ok true
    ∧ evaluate ctxReg (str "undefined_var") = .ok false
    ∧ resolveValue ctxReg (str "probe.bogus") =
        .error (str "unknown task result property: bogus")
    ∧ resolveValue ctxReg (str "probe.stdout") = .ok (str "installed") := by
  refine ⟨?_, by decide, by decide, by decide, by decide⟩
  intro cc ref htrim hq hpf hplat harch henv hTR hvar
  unfold resolveValue
  rw [htrim]
  rw [if_neg hq]
  rw [if_neg (by simp [hpf])]
  rw [if_neg hplat, if_neg harch, if_neg (by simp [henv])]
  simp only []
  by_cases hdot : containsSub ref (str ".") = true
  · obtain ⟨i, hi⟩ : ∃ i, findSub (str ".") ref = some i := by
      have := hdot
      unfold containsSub at this
      exact Option.isSome_iff_exists.mp this
    have hsplit : splitN2 ref (str ".") = [ref.take i, ref.drop (i + (str ".").length)] := by
      unfold splitN2
      rw [hi]
    rw [hdot]
    simp only [hsplit]
    rw [hTR _ _ hsplit]
    simp [hvar]
  · simp only [Bool.not_eq_true] at hdot
    rw [hdot]
    simp [hvar]

theorem resolve_undefined_characterization_witness :
    resolveValue ctx0 (str "undefined_var") = .ok [] := by
  have hs : splitN2 (str "undefined_var") (str ".") = [str "undefined_var"] := by decide
  exact resolve_undefined_characterization.1 ctx0 (str "undefined_var")
    (by decide) (by decide) (by decide) (by decide) (by decide) (by decide)
    (fun t p hsp => by rw [hs] at hsp; cases hsp)
    (by decide)

/-!  ## Playbook AST, parser and schema validator -/

/-- The flat fields of the Task struct: identification, platform filter,
when-condition, action and params, register, error handling and notify.
The display-only Result definition is omitted; the recursive Rollback field
is split off into PTask so that the type can nest. -/
structure TaskCore where
  name : Str := []
  id : Str := []
  platform : Str := []
  whenCond : Str := []
  action : Str := []
  params : Params := []
  register : Str := []
  ignoreErrors : Bool := false
  retries : Int := 0
  retryDelay : Int := 0
  notify : List Str := []

/-- The Task struct (named PTask to avoid the core Task type): its flat
fields plus the nested Rollback task executed on terminal failure. -/
inductive PTask where
  | mk (core : TaskCore) (rollback : Option PTask)

/-- The flat fields of a task. -/
def PTask.core : PTask → TaskCore
  | .mk c _ => c

/-- The nested rollback task, when declared. -/
def PTask.rollback : PTask → Option PTask
  | .mk _ r => r

/-- The ErrorHandler struct of the on_error section.  Only Strategy is
kept: the executor never reads NotifyServer or Message. -/
structure OnErrorCfg where
  strategy : Str := []
deriving DecidableEq, Repr

/-- The Playbook struct (Variables is userVariables here, as the Go name
is a Lean keyword).  Description, Author, MinAgentVersion, RequiresAdmin
and OnComplete are omitted: no verified operation reads them. -/
structure Playbook where
  version : Str := []
  name : Str := []
  platforms : List Str := []
  userVariables : List (Str × Str) := []
  tasks : List PTask := []
  handlers : List PTask := []
  onError : Option OnErrorCfg := none
  requiresReboot : Bool := false

/-- The Action* constant block: action tag command. -/
def actionCommand : Str := str "command"
/-- Action tag file. -/
def actionFile : Str := str "file"
/-- Action tag lineinfile. -/
def actionLineinfile : Str := str "lineinfile"
/-- Action tag env. -/
def actionEnv : Str := str "env"
/-- Action tag service. -/
def actionService : Str := str "service"
/-- Action tag registry. -/
def actionRegistry : Str := str "registry"
/-- Action tag sysctl. -/
def actionSysctl : Str := str "sysctl"
/-- Action tag defaults. -/
def actionDefaults : Str := str "defaults"
/-- Action tag settings. -/
def actionSettings : Str := str "settings"
/-- Action tag package. -/
def actionPackage : Str := str "package"

/-- A validation failure, with the offending field path and a message. -/
structure ValidationError where
  field : Str
  message : Str
deriving DecidableEq, Repr

/-- ValidationError.Error from the source. -/
def ValidationError.toStr (e : ValidationError) : Str :=
  str "validation error in " ++ quoteCh ++ e.field ++ quoteCh ++ str ": " ++ e.message

/-- A parse failure: either invalid YAML or a validation error. -/
inductive PErr where
  | invalidYAML
  | validation (v : ValidationError)
deriving DecidableEq, Repr

/-- The message carried by a parse failure (the YAML library text itself is
outside the model). -/
def PErr.toStr : PErr → Str
  | .invalidYAML => str "YAML parse failed"
  | .validation v => v.toStr

/-- NewParser platform mapping: windows, linux and darwin map to
themselves; a GOOS containing android maps to android. -/
def parserPlatformOf (goos : Str) : Str :=
  if goos = str "windows" ∨ goos = str "linux" ∨ goos = str "darwin" then goos
  else if containsSub goos (str "android") then str "android"
  else goos

/-- Parser.isSupportedVersion. -/
def isSupportedVersion (v : Str) : Bool :=
  v = schemaVersion ∨ v = str "1" ∨ v = str "1.0"

/-- Parser.isValidPlatform. -/
def isValidPlatform (p : Str) : Bool :=
  p = str "windows" ∨ p = str "linux" ∨ p = str "darwin" ∨ p = str "android"

/-- Parser.isPlatformSupported: the current platform must be listed. -/
def isPlatformSupported (platform : Str) (platforms : List Str) : Bool :=
  platforms.any (fun p => p == platform)

/-- Parser.isValidAction. -/
def isValidAction (a : Str) : Bool :=
  a = actionCommand ∨ a = actionFile ∨ a = actionLineinfile ∨ a = actionEnv ∨
  a = actionService ∨ a = actionRegistry ∨ a = actionSysctl ∨ a = actionDefaults ∨
  a = actionSettings ∨ a = actionPackage

/-- Parser.validateActionPlatform: platform-exclusive actions against the
effective platform (the task filter, or the parser platform when the task
has none). -/
def validateActionPlatform (parserPlatform action taskPlatform : Str) : Option Str :=
  let platform := if taskPlatform = [] then parserPlatform else taskPlatform
  if action = actionRegistry ∧ platform ≠ str "windows" then
    some (str "registry action is only available on Windows")
  else if action = actionSysctl ∧ platform ≠ str "linux" then
    some (str "sysctl action is only available on Linux")
  else if action = actionDefaults ∧ platform ≠ str "darwin" then
    some (str "defaults action is only available on macOS")
  else if (action = actionSettings ∨ action = actionPackage) ∧ platform ≠ str "android" then
    some (action ++ str " action is only available on Android")
  else none

/-- Parser.validateActionParams: required parameters per action. -/
def validateActionParams (action : Str) (params : Params) (fieldPre : Str) :
    Option ValidationError :=
  let need := fun (key msg : Str) =>
    match lookupA params key with
    | some _ => none
    | none => some { field := fieldPre ++ str ".params." ++ key, message := msg }
  if action = actionCommand then
    need (str "command") (str "command action requires " ++ quoteCh ++ str "command" ++ quoteCh ++ str " parameter")
  else if action = actionFile then
    need (str "path") (str "file action requires " ++ quoteCh ++ str "path" ++ quoteCh ++ str " parameter")
  else if action = actionRegistry then
    need (str "path") (str "registry action requires " ++ quoteCh ++ str "path" ++ quoteCh ++ str " parameter")
  else if action = actionSysctl then
    need (str "name") (str "sysctl action requires " ++ quoteCh ++ str "name" ++ quoteCh ++ str " parameter")
  else if action = actionDefaults then
    match need (str "domain") (str "defaults action requires " ++ quoteCh ++ str "domain" ++ quoteCh ++ str " parameter") with
    | some er => some er
    | none => need (str "key") (str "defaults action requires " ++ quoteCh ++ str "key" ++ quoteCh ++ str " parameter")
  else if action = actionSettings then
    match need (str "namespace") (str "settings action requires " ++ quoteCh ++ str "namespace" ++ quoteCh ++ str " parameter") with
    | some er => some er
    | none => need (str "key") (str "settings action requires " ++ quoteCh ++ str "key" ++ quoteCh ++ str " parameter")
  else if action = actionEnv then
    need (str "name") (str "env action requires " ++ quoteCh ++ str "name" ++ quoteCh ++ str " parameter")
  else if action = actionService then
    need (str "name") (str "service action requires " ++ quoteCh ++ str "name" ++ quoteCh ++ str " parameter")
  else if action = actionLineinfile then
    need (str "path") (str "lineinfile action requires " ++ quoteCh ++ str "path" ++ quoteCh ++ str " parameter")
  else if action = actionPackage then
    need (str "name") (str "package action requires " ++ quoteCh ++ str "name" ++ quoteCh ++ str " parameter")
  else none

/-- Parser.validateTask. -/
def validateTask (parserPlatform : Str) (task : PTask) (index : Nat) : Option ValidationError :=
  let fieldPre := str "tasks[" ++ natToStr index ++ str "]"
  if task.core.name = [] then
    some { field := fieldPre ++ str ".name", message := str "task name is required" }
  else if task.core.action = [] then
    some { field := fieldPre ++ str ".action", message := str "task action is required" }
  else if ¬ isValidAction task.core.action then
    some { field := fieldPre ++ str ".action",
           message := str "unknown action " ++ quoteCh ++ task.core.action ++ quoteCh }
  else
    match validateActionPlatform parserPlatform task.core.action task.core.platform with
    | some msg => some { field := fieldPre ++ str ".action", message := msg }
    | none =>
      match validateActionParams task.core.action task.core.params fieldPre with
      | some er => some er
      | none =>
        if task.core.retries < 0 then
          some { field := fieldPre ++ str ".retries", message := str "retries cannot be negative" }
        else if task.core.retryDelay < 0 then
          some { field := fieldPre ++ str ".retry_delay", message := str "retry_delay cannot be negative" }
        else none

/-- The first validation failure over an indexed task list. -/
def validateTasks (parserPlatform : Str) (tasks : List PTask) (index : Nat) :
    Option ValidationError :=
  match tasks with
  | [] => none
  | t :: rest =>
    match validateTask parserPlatform t index with
    | some er => some er
    | none => validateTasks parserPlatform rest (index + 1)

/-- The first validation failure over the handlers, wrapped as the source
does. -/
def validateHandlers (parserPlatform : Str) (handlers : List PTask) (index : Nat) :
    Option ValidationError :=
  match handlers with
  | [] => none
  | h :: rest =>
    match validateTask parserPlatform h index with
    | some er =>
      some { field := str "handlers[" ++ natToStr index ++ str "]", message := er.toStr }
    | none => validateHandlers parserPlatform rest (index + 1)

/-- Parser.Validate: version defaulting and check, required fields,
platform membership of the host, and per-task and per-handler checks. -/
def validatePlaybook (parserPlatform : Str) (pb0 : Playbook) : Except ValidationError Playbook :=
  let pb := if pb0.version = [] then { pb0 with version := schemaVersion } else pb0
  if ¬ isSupportedVersion pb.version then
    .error { field := str "version",
             message := str "version " ++ quoteCh ++ pb.version ++ quoteCh ++
               str " is not supported, expected " ++ quoteCh ++ schemaVersion ++ quoteCh }
  else if pb.name = [] then
    .error { field := str "name", message := str "playbook name is required" }
  else if pb.tasks.length = 0 then
    .error { field := str "tasks", message := str "playbook must have at least one task" }
  else if pb.platforms ≠ [] ∧ ¬ pb.platforms.all isValidPlatform then
    .error { field := str "platforms",
             message := str "invalid platform" }
  else if pb.platforms ≠ [] ∧ ¬ isPlatformSupported parserPlatform pb.platforms then
    .error { field := str "platforms",
             message := str "playbook does not support platform " ++ quoteCh ++ parserPlatform ++ quoteCh }
  else
    match validateTasks parserPlatform pb.tasks 0 with
    | some er => .error er
    | none =>
      match validateHandlers parserPlatform pb.handlers 0 with
      | some er => .error er
      | none => .ok pb

/-- Parser.Parse: YAML unmarshalling (abstracted as a parameter, since the
YAML library is outside the engine) followed by Validate. -/
def parsePlaybook (unmarshal : Str → Option Playbook) (parserPlatform : Str) (content : Str) :
    Except PErr Playbook :=
  match unmarshal content with
  | none => .error .invalidYAML
  | some pb =>
    match validatePlaybook parserPlatform pb with
    | .error er => .error (.validation er)
    | .ok pb2 => .ok pb2

/-!  ## Executor -/

/-- Observable events of one execution: progress callbacks as the
onProgress callback would receive them, and invocations of an action
handler Execute method (with the 1-based attempt number). -/
inductive Ev where
  | progress (taskName : Str) (status : TaskStatus)
  | handlerExec (taskName : Str) (attempt : Nat)
deriving DecidableEq, Repr

/-- True exactly on handler-invocation events. -/
def Ev.isHandlerExec : Ev → Bool
  | .handlerExec _ _ => true
  | _ => false

/-- The ExecutionReport struct sent back to the server, minus its
wall-clock timing fields. -/
structure ExecutionReport where
  playbookID : Str := []
  playbookName : Str := []
  deviceID : Str := []
  status : Str := []
  verification : VerificationRecord := {}
  taskResults : List TaskResult := []
  tasksTotal : Nat := 0
  tasksCompleted : Nat := 0
  tasksFailed : Nat := 0
  tasksSkipped : Nat := 0
  rebootRequired : Bool := false
  errorMessage : Str := []
deriving DecidableEq, Repr

/-- An action handler as the executor sees it: the supported platforms and
the Execute method.  The outcome of an Execute call is determined by the
host environment, abstracted as a function of the attempt number; the Go
return pair (result, error) is kept as is. -/
structure HandlerM where
  supports : List Str
  exec : Nat → Params → Option TaskResult × Option Str

/-- The executor configuration and its abstracted environment: crypto
primitives and pinned key, device id, the OS facade, the registered
handlers, the YAML unmarshaller, and the cancellation state of the context
(modelled as constant through one execution). -/
structure ExecCfg where
  crypto : Crypto
  serverPublicKey : List Nat
  deviceID : Str
  sys : SysEnv
  handlers : List (Str × HandlerM)
  unmarshal : Str → Option Playbook
  cancelled : Bool

/-- The executor platform, runtime.GOOS. -/
def ExecCfg.platform (cfg : ExecCfg) : Str := cfg.sys.goos

/-- The Go error strings of the verifier error values. -/
def verifyErrStr : VerifyErr → Str
  | .emptyContent => str "SECURITY VIOLATION: empty playbook content"
  | .missingHash => str "SECURITY VIOLATION: missing playbook hash"
  | .missingSignature => str "SECURITY VIOLATION: missing playbook signature"
  | .hashMismatch => str "SECURITY VIOLATION: playbook hash mismatch - content may have been tampered"
  | .invalidSignature => str "SECURITY VIOLATION: invalid signature - playbook not authenticated"
  | .notApproved => str "SECURITY VIOLATION: playbook not approved - requires human review"

/-- The Go error strings of the variable-substitution errors. -/
def varErrStr : VariableErr → Str
  | .varNotFound n =>
    str "variable " ++ quoteCh ++ str "\x7b\x7b " ++ n ++ str " \x7d\x7d" ++ quoteCh ++
      str " error: variable not found"
  | .unknownProp p => str "unknown property " ++ quoteCh ++ p ++ quoteCh

/-- The error outcomes Execute and DryRun can return alongside a report. -/
inductive ExecErr where
  | security (v : VerifyErr)
  | parse (p : PErr)
  | platformMismatch
  | taskFailed (name msg : Str)
  | ctxCancelled
  | dryRunIssues (n : Nat)
deriving DecidableEq, Repr

/-- The outcome of the retry loop inside executeTask. -/
inductive AttemptOut where
  | success (res : TaskResult)
  | cancelledDelay (res : TaskResult)
  | exhausted (res : TaskResult) (lastErr : Option Str)
deriving DecidableEq, Repr

/-- The retry loop of executeTask: up to retries+1 attempts; a successful
attempt copies the handler result and reports completed progress; between
attempts the retry delay is interruptible by cancellation; otherwise the
loop exhausts with the last error.  The remaining counter starts at
maxAttempts, so remaining greater than one corresponds to the source
condition attempt less than maxAttempts. -/
def attemptLoop (cancelled : Bool) (taskName : Str) (h : HandlerM) (params : Params)
    (retryDelay : Int) : (remaining : Nat) → (attempt : Nat) → TaskResult → Option Str →
    AttemptOut × List Ev
  | 0, _, res, lastErr => (.exhausted res lastErr, [])
  | remaining + 1, attempt, res0, _lastErr =>
    let res := { res0 with status := TaskStatus.running }
    let out := h.exec attempt params
    let ev : Ev := .handlerExec taskName attempt
    match out with
    | (some er, none) =>
      (.success { res with
                  status := TaskStatus.completed
                  changed := er.changed
                  stdout := er.stdout
                  stderr := er.stderr
                  exitCode := er.exitCode
                  message := er.message },
       [ev, .progress taskName TaskStatus.completed])
    | (execResult, execErr) =>
      let res := match execResult with
        | some er => { res with
            stdout := er.stdout
            stderr := er.stderr
            exitCode := er.exitCode }
        | none => res
      if remaining > 0 ∧ retryDelay > 0 then
        if cancelled then
          (.cancelledDelay { res with
             status := TaskStatus.failed
             errorMsg := str "cancelled during retry delay" }, [ev])
        else
          let rec1 := attemptLoop cancelled taskName h params retryDelay remaining (attempt + 1) res execErr
          (rec1.1, ev :: rec1.2)
      else
        let rec1 := attemptLoop cancelled taskName h params retryDelay remaining (attempt + 1) res execErr
        (rec1.1, ev :: rec1.2)

/-- Executor.executeTask: progress, platform filter, condition, handler
lookup, handler platform support, parameter substitution, the retry loop,
and rollback on terminal failure.  The returned event list contains the
progress callbacks and handler invocations in order. -/
def executeTask (cfg : ExecCfg) : PTask → Variables → TaskResult × List Ev
  | .mk core rb, vars =>
    let result0 : TaskResult :=
      { taskName := core.name, taskID := core.id, status := TaskStatus.pending }
    let evs0 : List Ev := [.progress core.name TaskStatus.running]
    if core.platform ≠ [] ∧ core.platform ≠ cfg.platform then
      ({ result0 with
         status := TaskStatus.skipped
         message := str "Skipped: platform filter " ++ quoteCh ++ core.platform ++ quoteCh ++
           str " doesn" ++ quoteCh ++ str "t match " ++ quoteCh ++ cfg.platform ++ quoteCh },
       evs0)
    else
      let condRes : Except Str Bool :=
        if core.whenCond = [] then .ok true
        else evaluate { sys := cfg.sys, vars := vars } core.whenCond
      match condRes with
      | .error e =>
        ({ result0 with
           status := TaskStatus.failed
           errorMsg := str "condition evaluation failed: " ++ e }, evs0)
      | .ok false =>
        ({ result0 with
           status := TaskStatus.skipped
           message := str "Skipped: condition " ++ quoteCh ++ core.whenCond ++ quoteCh ++
             str " evaluated to false" }, evs0)
      | .ok true =>
        match lookupA cfg.handlers core.action with
        | none =>
          ({ result0 with
             status := TaskStatus.failed
             errorMsg := str "no handler registered for action " ++ quoteCh ++ core.action ++ quoteCh },
           evs0)
        | some h =>
          if ¬ h.supports.any (fun p => p == cfg.platform || p == str "all") then
            ({ result0 with
               status := TaskStatus.failed
               errorMsg := str "action " ++ quoteCh ++ core.action ++ quoteCh ++
                 str " does not support platform " ++ quoteCh ++ cfg.platform ++ quoteCh },
             evs0)
          else
            match substituteMap cfg.sys vars core.params with
            | .error er =>
              ({ result0 with
                 status := TaskStatus.failed
                 errorMsg := str "variable substitution failed: " ++ varErrStr er }, evs0)
            | .ok params =>
              let maxAttempts := (core.retries + 1).toNat
              let loopOut := attemptLoop cfg.cancelled core.name h params core.retryDelay
                maxAttempts 1 result0 none
              match loopOut.1 with
              | .success res => (res, evs0 ++ loopOut.2)
              | .cancelledDelay res => (res, evs0 ++ loopOut.2)
              | .exhausted res lastErr =>
                let res := { res with
                  status := TaskStatus.failed
                  errorMsg := match lastErr with
                    | some e => e
                    | none => str "task failed after all retries" }
                match rb with
                | some rt =>
                  let rbOut := executeTask cfg rt vars
                  let res :=
                    if rbOut.1.status = TaskStatus.failed then
                      { res with errorMsg := res.errorMsg ++ str " (rollback also failed: " ++
                          rbOut.1.errorMsg ++ str ")" }
                    else { res with message := str "Rollback executed successfully" }
                  (res, evs0 ++ loopOut.2 ++ rbOut.2 ++ [.progress core.name TaskStatus.failed])
                | none =>
                  (res, evs0 ++ loopOut.2 ++ [.progress core.name TaskStatus.failed])

/-- The running state of the task loop: accumulated results and counters,
the dirty handler names, the variable context, and the event trace. -/
structure LoopSt where
  results : List TaskResult := []
  completedN : Nat := 0
  failedN : Nat := 0
  skippedN : Nat := 0
  notified : List Str := []
  vars : Variables
  evs : List Ev := []

/-- How the task loop ends: cancellation, an abort on a failed task, or
normal completion. -/
inductive LoopOut where
  | ctxCancelled (st : LoopSt)
  | abortFailed (st : LoopSt) (taskName : Str) (errMsg : Str)
  | done (st : LoopSt)

/-- The loop state after recording one task outcome: result and event
accumulation, the status counters, and the dirty-handler bookkeeping for a
changed completed task. -/
def loopStAfter (t : PTask) (st : LoopSt) (out : TaskResult × List Ev) : LoopSt :=
  let st1 := { st with
    results := st.results ++ [out.1]
    evs := st.evs ++ out.2 }
  match out.1.status with
  | TaskStatus.completed =>
    { st1 with
      completedN := st1.completedN + 1
      notified := st1.notified ++ (if out.1.changed then t.core.notify else []) }
  | TaskStatus.failed => { st1 with failedN := st1.failedN + 1 }
  | TaskStatus.skipped => { st1 with skippedN := st1.skippedN + 1 }
  | _ => st1

/-- One iteration body of the task loop over the outcome of executeTask,
with the recursive continuation abstracted: the state update, the abort
decision (stop when on_error is absent or its strategy is stop), and
result registration. -/
def taskLoopCont (onError : Option OnErrorCfg) (t : PTask)
    (recLoop : LoopSt → LoopOut) (st : LoopSt) (out : TaskResult × List Ev) : LoopOut :=
  let st2 := loopStAfter t st out
  if out.1.status = TaskStatus.failed ∧ ¬ t.core.ignoreErrors ∧
     (onError = none ∨ ∃ o, onError = some o ∧ o.strategy = str "stop") then
    .abortFailed st2 t.core.name out.1.errorMsg
  else
    recLoop (if t.core.register ≠ [] then
      { st2 with vars := setTaskResult st2.vars t.core.register out.1 } else st2)

theorem loopStAfter_results (t : PTask) (st : LoopSt) (out : TaskResult × List Ev) :
    (loopStAfter t st out).results = st.results ++ [out.1] := by
  unfold loopStAfter
  split <;> rfl

/-- The task loop of Executor.Execute: cancellation check, then one task
step via taskLoopCont. -/
def taskLoop (cfg : ExecCfg) (onError : Option OnErrorCfg) :
    List PTask → LoopSt → LoopOut
  | [], st => .done st
  | t :: rest, st =>
    if cfg.cancelled then .ctxCancelled st
    else taskLoopCont onError t (taskLoop cfg onError rest) st (executeTask cfg t st.vars)

/-- The handler phase of Executor.Execute: runs each playbook handler whose
name was notified, in the textual order of the handlers list, counting
failures of handlers that do not ignore errors. -/
def handlerLoop (cfg : ExecCfg) (notified : List Str) :
    List PTask → Variables → List TaskResult × List Ev × Nat
  | [], _ => ([], [], 0)
  | h :: rest, vars =>
    if notified.contains h.core.name then
      let out := executeTask cfg h vars
      let rec1 := handlerLoop cfg notified rest vars
      (out.1 :: rec1.1, out.2 ++ rec1.2.1,
       (if out.1.status = TaskStatus.failed ∧ ¬ h.core.ignoreErrors then 1 else 0) + rec1.2.2)
    else handlerLoop cfg notified rest vars

/-- The initial loop state of one execution: the variable context seeded
with the playbook variables. -/
def initLoopSt (cfg : ExecCfg) (playbook : Playbook) : LoopSt :=
  { vars := setUserVars cfg.sys (newVariables cfg.sys) playbook.userVariables }

/-- Final report assembly when the task loop ran to completion: the
handler phase and the completed status. -/
def executeLoopDone (cfg : ExecCfg) (report : ExecutionReport) (playbook : Playbook)
    (st : LoopSt) : ExecutionReport × List Ev × Option ExecErr :=
  ({ report with
     playbookName := playbook.name
     status := str "completed"
     taskResults := st.results ++ (handlerLoop cfg st.notified playbook.handlers st.vars).1
     tasksTotal := playbook.tasks.length
     tasksCompleted := st.completedN
     tasksFailed := st.failedN + (handlerLoop cfg st.notified playbook.handlers st.vars).2.2
     tasksSkipped := st.skippedN
     rebootRequired := playbook.requiresReboot },
   st.evs ++ (handlerLoop cfg st.notified playbook.handlers st.vars).2.1, none)

/-- Steps 3 to 6 of Executor.Execute over the parsed playbook: platform
check, the task loop, the handler phase and final assembly. -/
def executeParsed (cfg : ExecCfg) (report : ExecutionReport) (playbook : Playbook) :
    ExecutionReport × List Ev × Option ExecErr :=
  if playbook.platforms ≠ [] ∧ ¬ playbook.platforms.any (fun p => p == cfg.platform) then
    ({ report with
       playbookName := playbook.name
       status := str "rejected"
       errorMessage := str "Platform " ++ quoteCh ++ cfg.platform ++ quoteCh ++
         str " not supported by this playbook" },
     [], some .platformMismatch)
  else
    match taskLoop cfg playbook.onError playbook.tasks (initLoopSt cfg playbook) with
    | .ctxCancelled st =>
      ({ report with
         playbookName := playbook.name
         status := str "cancelled"
         taskResults := st.results
         tasksTotal := playbook.tasks.length
         tasksCompleted := st.completedN
         tasksFailed := st.failedN
         tasksSkipped := st.skippedN },
       st.evs, some .ctxCancelled)
    | .abortFailed st name errMsg =>
      ({ report with
         playbookName := playbook.name
         status := str "failed"
         errorMessage := errMsg
         taskResults := st.results
         tasksTotal := playbook.tasks.length
         tasksCompleted := st.completedN
         tasksFailed := st.failedN
         tasksSkipped := st.skippedN },
       st.evs, some (.taskFailed name errMsg))
    | .done st => executeLoopDone cfg report playbook st

/-- Steps 2 to 6 of Executor.Execute, after the verification record has
been attached: parse, then the parsed stages. -/
def executeVerified (cfg : ExecCfg) (sp : SignedPlaybook) (report : ExecutionReport) :
    ExecutionReport × List Ev × Option ExecErr :=
  match parsePlaybook cfg.unmarshal (parserPlatformOf cfg.sys.goos) sp.content with
  | .error pe =>
    ({ report with status := str "failed", errorMessage := str "Parse error: " ++ pe.toStr },
     [], some (.parse pe))
  | .ok playbook => executeParsed cfg report playbook

/-- Executor.Execute: verification first; on failure the report is
rejected with the verification record attached and nothing else happens;
otherwise the verified content is parsed and run. -/
def execute (cfg : ExecCfg) (sp : SignedPlaybook) :
    ExecutionReport × List Ev × Option ExecErr :=
  match verify cfg.crypto cfg.serverPublicKey sp with
  | (vrec, some ve) =>
    ({ playbookID := sp.playbookID
       deviceID := cfg.deviceID
       status := str "rejected"
       verification := vrec
       errorMessage := str "SECURITY: " ++ verifyErrStr ve },
     [], some (.security ve))
  | (vrec, none) =>
    executeVerified cfg sp
      { playbookID := sp.playbookID, deviceID := cfg.deviceID, status := str "pending",
        verification := vrec }

/-- The simulation of one task inside DryRun: the platform filter, then
condition validation, then the handler-existence check; a task with both
an invalid condition and a missing handler is counted twice, as in the
source. -/
def dryRunSim (cfg : ExecCfg) (t : PTask) : TaskResult × Nat :=
  let simResult : TaskResult :=
    { taskName := t.core.name, taskID := t.core.id, status := TaskStatus.pending }
  let (simResult, issues) :=
    if t.core.platform ≠ [] ∧ t.core.platform ≠ cfg.platform then
      ({ simResult with
         status := TaskStatus.skipped
         message := str "Would skip: platform filter" }, 0)
    else if t.core.whenCond ≠ [] then
      match validateCondition t.core.whenCond with
      | some er =>
        ({ simResult with
           status := TaskStatus.failed
           errorMsg := str "Invalid condition: " ++ er }, 1)
      | none =>
        ({ simResult with
           status := TaskStatus.pending
           message := str "Would execute if condition " ++ quoteCh ++ t.core.whenCond ++ quoteCh ++
             str " is true" }, 0)
    else
      ({ simResult with
         status := TaskStatus.pending
         message := str "Would execute" }, 0)
  match lookupA cfg.handlers t.core.action with
  | some _ => (simResult, issues)
  | none =>
    ({ simResult with
       status := TaskStatus.failed
       errorMsg := str "No handler for action " ++ quoteCh ++ t.core.action ++ quoteCh },
     issues + 1)

/-- Executor.DryRun: full verification and parsing, then simulation of
each task without dispatching anything. -/
def dryRunReport (cfg : ExecCfg) (sp : SignedPlaybook) :
    ExecutionReport × Option ExecErr :=
  match verify cfg.crypto cfg.serverPublicKey sp with
  | (vrec, some ve) =>
    ({ playbookID := sp.playbookID
       deviceID := cfg.deviceID
       status := str "rejected"
       verification := vrec
       errorMessage := str "SECURITY: " ++ verifyErrStr ve },
     some (.security ve))
  | (vrec, none) =>
    let report : ExecutionReport :=
      { playbookID := sp.playbookID, deviceID := cfg.deviceID, status := str "dry_run",
        verification := vrec }
    match parsePlaybook cfg.unmarshal (parserPlatformOf cfg.sys.goos) sp.content with
    | .error pe =>
      ({ report with status := str "failed", errorMessage := str "Parse error: " ++ pe.toStr },
       some (.parse pe))
    | .ok playbook =>
      let report := { report with
        playbookName := playbook.name
        tasksTotal := playbook.tasks.length }
      let sims := playbook.tasks.map (dryRunSim cfg)
      let report := { report with
        taskResults := sims.map (fun (s : TaskResult × Nat) => s.1)
        tasksFailed := (sims.map (fun (s : TaskResult × Nat) => s.2)).sum }
      if report.tasksFailed > 0 then
        ({ report with status := str "dry_run_failed" },
         some (.dryRunIssues report.tasksFailed))
      else
        ({ report with status := str "dry_run_ok" }, none)

/-- Executor.DryRun, with its (empty) event trace: a dry run reports no
progress and invokes no handler. -/
def dryRun (cfg : ExecCfg) (sp : SignedPlaybook) :
    ExecutionReport × List Ev × Option ExecErr :=
  ((dryRunReport cfg sp).1, [], (dryRunReport cfg sp).2)

/-- A handler whose Execute always succeeds with changed true. -/
def handlerOkChanged : HandlerM :=
  { supports := [str "all"],
    exec := fun _ _ =>
      (some { status := TaskStatus.completed, changed := true, stdout := str "done" }, none) }

/-- A handler whose Execute always fails. -/
def handlerFail : HandlerM :=
  { supports := [str "all"], exec := fun _ _ => (none, some (str "boom")) }

/-- A baseline executor configuration over the Linux facade with the
trivial crypto primitives and a command handler registered. -/
def cfgBase : ExecCfg :=
  { crypto := crypto0, serverPublicKey := [], deviceID := str "dev", sys := sys0,
    handlers := [(str "command", handlerOkChanged)], unmarshal := fun _ => none,
    cancelled := false }

/-- A signed playbook accepted by the trivial crypto primitives. -/
def spOk : SignedPlaybook :=
  { content := str "c", sha256Hash := hexEncode (List.replicate 32 0), signature := [1],
    status := statusApproved, playbookID := str "pb" }

/-- A minimal valid command task. -/
def taskCmd : PTask :=
  PTask.mk { name := str "t2", action := str "command",
             params := [(str "command", YVal.s (str "true"))] } none

/-- The playbook of the platform-mismatch scenario: platforms lists only
windows. -/
def pbWinOnly : Playbook :=
  { version := str "1.0", name := str "p", platforms := [str "windows"],
    tasks := [taskCmd] }

/-- The executor configuration whose unmarshaller yields the windows-only
playbook. -/
def cfgWinOnly : ExecCfg := { cfgBase with unmarshal := fun _ => some pbWinOnly }


theorem verify_pass_iff_err_none (c : Crypto) (k : List Nat) (sp : SignedPlaybook) :
    (verify c k sp).1.allChecksPass = true ↔ (verify c k sp).2 = none := by
  unfold verify
  by_cases h1 : sp.content = [] <;> by_cases h2 : sp.sha256Hash = [] <;>
    by_cases h3 : sp.signature = [] <;>
    by_cases h4 : hexEncode (c.sha256 sp.content) = sp.sha256Hash <;>
    by_cases h5 : c.edVerify k (c.sha256 sp.content) sp.signature = true <;>
    by_cases h6 : sp.status ≠ statusApproved ∧ sp.status ≠ statusTest <;>
    simp [h1, h2, h3, h4, h5, h6]

theorem executeVerified_verification (cfg : ExecCfg) (sp : SignedPlaybook)
    (report : ExecutionReport) :
    (executeVerified cfg sp report).1.verification = report.verification := by
  unfold executeVerified
  split
  · rfl
  · unfold executeParsed executeLoopDone
    split
    · rfl
    · split <;> rfl

theorem dryRun_no_events (cfg : ExecCfg) (sp : SignedPlaybook) : (dryRun cfg sp).2.1 = [] := rfl

/-- C1: when the Verifier fails any check, Execute and DryRun return a
rejected report carrying the populated verification record with
all_checks_pass false, an empty task-result list, and no handler Execute
invocation; moreover in any execution a handler invocation implies the
report verification passed, and a dry run never invokes a handler. -/
theorem security_gate_characterization (cfg : ExecCfg) (sp : SignedPlaybook)
    (hfail : (verify cfg.crypto cfg.serverPublicKey sp).2.isSome = true) :
    ((execute cfg sp).1.status = str "rejected" ∧
     (execute cfg sp).1.verification = (verify cfg.crypto cfg.serverPublicKey sp).1 ∧
     (execute cfg sp).1.verification.allChecksPass = false ∧
     (execute cfg sp).1.taskResults = [] ∧
     (execute cfg sp).2.1 = [])
    ∧ ((dryRun cfg sp).1.status = str "rejected" ∧
       (dryRun cfg sp).1.verification = (verify cfg.crypto cfg.serverPublicKey sp).1 ∧
       (dryRun cfg sp).1.taskResults = [] ∧
       (dryRun cfg sp).2.1 = [])
    ∧ (∀ sp2, (execute cfg sp2).2.1.any Ev.isHandlerExec = true →
        (execute cfg sp2).1.verification.allChecksPass = true)
    ∧ (∀ sp2, (dryRun cfg sp2).2.1 = []) := by
  have hpassFalse : (verify cfg.crypto cfg.serverPublicKey sp).1.allChecksPass = false := by
    rcases hb : (verify cfg.crypto cfg.serverPublicKey sp).1.allChecksPass with _ | _
    · rfl
    · exfalso
      have := (verify_pass_iff_err_none cfg.crypto cfg.serverPublicKey sp).mp hb
      rw [this] at hfail
      cases hfail
  refine ⟨?_, ?_, ?_, fun sp2 => dryRun_no_events cfg sp2⟩
  · unfold execute
    rcases hv : verify cfg.crypto cfg.serverPublicKey sp with ⟨vrec, _ | ve⟩
    · rw [hv] at hfail
      cases hfail
    · rw [hv] at hpassFalse
      exact ⟨rfl, rfl, hpassFalse, rfl, rfl⟩
  · unfold dryRun dryRunReport
    rcases hv : verify cfg.crypto cfg.serverPublicKey sp with ⟨vrec, _ | ve⟩
    · rw [hv] at hfail
      cases hfail
    · exact ⟨rfl, rfl, rfl, rfl⟩
  · intro sp2 hany
    unfold execute at hany ⊢
    rcases hv : verify cfg.crypto cfg.serverPublicKey sp2 with ⟨vrec, _ | ve⟩
    · rw [executeVerified_verification]
      have h2 := (verify_pass_iff_err_none cfg.crypto cfg.serverPublicKey sp2).mpr (by rw [hv])
      rw [hv] at h2
      exact h2
    · rw [hv] at hany
      simp at hany

theorem security_gate_characterization_witness :
    (execute cfgBase spEmpty).1.status = str "rejected" ∧
    (execute cfgBase spEmpty).1.taskResults = [] ∧
    (execute cfgBase spEmpty).2.1 = [] := by
  have h := security_gate_characterization cfgBase spEmpty (by decide)
  exact ⟨h.1.1, h.1.2.2.2.1, h.1.2.2.2.2⟩

/-- C3: on a Linux host, a verified playbook whose platforms list is
exactly windows is rejected by the parser validation, so Execute returns
status failed with a parse-error message, not the status rejected of the
claim; the executor platform check that would produce rejected is
unreachable.  Verification passed and nothing was dispatched. -/
theorem platform_mismatch_code_bug :
    (execute cfgWinOnly spOk).1.status = str "failed" ∧
    (execute cfgWinOnly spOk).1.status ≠ str "rejected" ∧
    (execute cfgWinOnly spOk).1.verification.allChecksPass = true ∧
    (execute cfgWinOnly spOk).1.taskResults = [] ∧
    (execute cfgWinOnly spOk).2.1 = [] ∧
    (execute cfgWinOnly spOk).2.2 = some (ExecErr.parse (PErr.validation
      (ValidationError.mk (str "platforms")
        (str "playbook does not support platform " ++ quoteCh ++ str "linux" ++ quoteCh)))) := by
  decide

/-- A valid service task whose action has no registered handler in
cfgBase, so executing it fails. -/
def taskSvcFail : PTask :=
  PTask.mk { name := str "t1", action := str "service",
             params := [(str "name", YVal.s (str "x"))] } none

/-- A playbook declaring on_error strategy rollback, with a failing first
task and a succeeding second task. -/
def pbRollback : Playbook :=
  { version := str "1.0", name := str "p", tasks := [taskSvcFail, taskCmd],
    onError := some { strategy := str "rollback" } }

/-- The executor configuration for the rollback-strategy scenario. -/
def cfgRollback : ExecCfg := { cfgBase with unmarshal := fun _ => some pbRollback }

/-- C6 counterexample: with on_error strategy rollback, a failed
non-ignored task does NOT abort the loop: the second task still runs and
the report completes, where the claim demands an abort with status
failed. -/
theorem on_error_rollback_counterexample :
    (execute cfgRollback spOk).1.status = str "completed" ∧
    (execute cfgRollback spOk).1.status ≠ str "failed" ∧
    ((execute cfgRollback spOk).1.taskResults.map (fun r => r.status)) =
      [TaskStatus.failed, TaskStatus.completed] ∧
    pbRollback.onError = some { strategy := str "rollback" } ∧
    taskSvcFail.core.ignoreErrors = false := by
  decide

/-- C6 (amended): in the task loop, a task that finishes failed with
ignore_errors false aborts the loop exactly when on_error is absent or its
strategy is the literal stop; any other strategy value, including the
declared rollback, lets execution proceed to the remaining tasks. -/
theorem on_error_strategy_amended (cfg : ExecCfg) (onError : Option OnErrorCfg)
    (t : PTask) (rest : List PTask) (st : LoopSt)
    (hcancel : cfg.cancelled = false)
    (hfail : (executeTask cfg t st.vars).1.status = TaskStatus.failed)
    (hign : t.core.ignoreErrors = false) :
    ((onError = none ∨ onError = some { strategy := str "stop" }) →
       ∃ st2, taskLoop cfg onError (t :: rest) st =
         .abortFailed st2 t.core.name (executeTask cfg t st.vars).1.errorMsg ∧
         st2.results = st.results ++ [(executeTask cfg t st.vars).1])
    ∧ (∀ o, onError = some o → o.strategy ≠ str "stop" →
       ∃ st2, taskLoop cfg onError (t :: rest) st = taskLoop cfg onError rest st2 ∧
         st2.results = st.results ++ [(executeTask cfg t st.vars).1]) := by
  have hstep : taskLoop cfg onError (t :: rest) st =
      taskLoopCont onError t (taskLoop cfg onError rest) st (executeTask cfg t st.vars) := by
    unfold taskLoop
    rw [hcancel]
    simp
  constructor
  · intro honE
    rw [hstep]
    rcases hout : executeTask cfg t st.vars with ⟨result, evs⟩
    have hres : result.status = TaskStatus.failed := by
      have h2 := hfail
      rw [hout] at h2
      exact h2
    have hcond : result.status = TaskStatus.failed ∧ ¬ t.core.ignoreErrors ∧
        (onError = none ∨ ∃ o, onError = some o ∧ o.strategy = str "stop") := by
      refine ⟨hres, by simp [hign], ?_⟩
      rcases honE with h | h
      · exact Or.inl h
      · exact Or.inr ⟨_, h, rfl⟩
    unfold taskLoopCont
    rw [if_pos hcond]
    refine ⟨_, rfl, ?_⟩
    exact loopStAfter_results t st (result, evs)
  · intro o ho hstop
    rw [hstep]
    rcases hout : executeTask cfg t st.vars with ⟨result, evs⟩
    have hcondneg : ¬ (result.status = TaskStatus.failed ∧ ¬ t.core.ignoreErrors ∧
        (onError = none ∨ ∃ o, onError = some o ∧ o.strategy = str "stop")) := by
      intro hcon
      rcases hcon.2.2 with h | ⟨o2, ho2, hs2⟩
      · rw [ho] at h
        cases h
      · rw [ho] at ho2
        cases ho2
        exact hstop hs2
    unfold taskLoopCont
    rw [if_neg hcondneg]
    refine ⟨_, rfl, ?_⟩
    split <;> exact loopStAfter_results t st (result, evs)

theorem on_error_strategy_amended_witness :
    ∃ st2, taskLoop cfgBase (some { strategy := str "rollback" }) [taskSvcFail]
        { vars := newVariables sys0 } =
      taskLoop cfgBase (some { strategy := str "rollback" }) [] st2 ∧
      st2.results =
        ({ vars := newVariables sys0 : LoopSt }).results ++
          [(executeTask cfgBase taskSvcFail ({ vars := newVariables sys0 : LoopSt }).vars).1] :=
  (on_error_strategy_amended cfgBase (some { strategy := str "rollback" })
    taskSvcFail [] { vars := newVariables sys0 } (by decide) (by decide) (by decide)).2
    { strategy := str "rollback" } rfl (by decide)

theorem handlerLoop_results (cfg : ExecCfg) (notified : List Str) (hs : List PTask)
    (vars : Variables) :
    (handlerLoop cfg notified hs vars).1 =
      (hs.filter (fun h => notified.contains h.core.name)).map
        (fun h => (executeTask cfg h vars).1) := by
  induction hs with
  | nil => rfl
  | cons h rest ih =>
    unfold handlerLoop
    by_cases hm : h.core.name ∈ notified
    · have hc : notified.contains h.core.name = true := by simpa using hm
      simp [hc, hm, ih, List.filter_cons]
    · have hc : notified.contains h.core.name = false := by simpa using hm
      simp [hc, hm, ih, List.filter_cons]

theorem loopStAfter_notified (t : PTask) (st : LoopSt) (out : TaskResult × List Ev) (n : Str) :
    n ∈ (loopStAfter t st out).notified ↔
      n ∈ st.notified ∨ (out.1.status = TaskStatus.completed ∧ out.1.changed = true ∧
        n ∈ t.core.notify) := by
  unfold loopStAfter
  rcases hstat : out.1.status <;> simp [hstat]

theorem taskLoop_done_spec (cfg : ExecCfg) (onError : Option OnErrorCfg) :
    ∀ (tasks : List PTask) (st st2 : LoopSt),
      taskLoop cfg onError tasks st = .done st2 →
      ∃ newRes, st2.results = st.results ++ newRes ∧ newRes.length = tasks.length ∧
        (∀ n, n ∈ st2.notified ↔ n ∈ st.notified ∨ ∃ p ∈ List.zip tasks newRes,
            p.2.status = TaskStatus.completed ∧ p.2.changed = true ∧ n ∈ p.1.core.notify) := by
  intro tasks
  induction tasks with
  | nil =>
    intro st st2 h
    unfold taskLoop at h
    cases h
    exact ⟨[], by simp, rfl, fun n => by simp⟩
  | cons t rest ih =>
    intro st st2 h
    unfold taskLoop at h
    by_cases hcan : cfg.cancelled = true
    · rw [if_pos hcan] at h
      cases h
    · rw [if_neg hcan] at h
      rcases hout : executeTask cfg t st.vars with ⟨result, evs⟩
      rw [hout] at h
      unfold taskLoopCont at h
      by_cases habort : (result, evs).1.status = TaskStatus.failed ∧ ¬ t.core.ignoreErrors ∧
          (onError = none ∨ ∃ o, onError = some o ∧ o.strategy = str "stop")
      · rw [if_pos habort] at h
        cases h
      · rw [if_neg habort] at h
        obtain ⟨newRes2, h1, h2, h3⟩ := ih _ _ h
        refine ⟨result :: newRes2, ?_, by simp [h2], ?_⟩
        · rw [h1]
          have hr : ((if t.core.register ≠ [] then
              { loopStAfter t st (result, evs) with
                vars := setTaskResult (loopStAfter t st (result, evs)).vars t.core.register
                  (result, evs).1 }
              else loopStAfter t st (result, evs))).results = st.results ++ [result] := by
            split <;> exact loopStAfter_results t st (result, evs)
          rw [hr]
          simp
        · intro n
          have h3n := h3 n
          rw [h3n]
          have hmem : ∀ stx : LoopSt,
              (if t.core.register ≠ [] then
                { loopStAfter t st (result, evs) with
                  vars := setTaskResult (loopStAfter t st (result, evs)).vars t.core.register
                    (result, evs).1 }
                else loopStAfter t st (result, evs)).notified =
              (loopStAfter t st (result, evs)).notified := by
            intro _
            split <;> rfl
          rw [hmem st]
          rw [loopStAfter_notified t st (result, evs) n]
          simp only [List.zip_cons_cons, List.mem_cons]
          constructor
          · rintro ((hn | hc) | ⟨p, hp, hps⟩)
            · exact Or.inl hn
            · exact Or.inr ⟨(t, result), Or.inl rfl, hc.1, hc.2.1, hc.2.2⟩
            · exact Or.inr ⟨p, Or.inr hp, hps⟩
          · rintro (hn | ⟨p, hp | hp, hps⟩)
            · exact Or.inl (Or.inl hn)
            · rw [hp] at hps
              exact Or.inl (Or.inr ⟨hps.1, hps.2.1, hps.2.2⟩)
            · exact Or.inr ⟨p, hp, hps⟩

/-- A command task that notifies the reload handler. -/
def taskNotify : PTask :=
  PTask.mk { name := str "t1", action := str "command",
             params := [(str "command", YVal.s (str "x"))],
             notify := [str "reload"] } none

/-- The reload playbook handler. -/
def hReload : PTask :=
  PTask.mk { name := str "reload", action := str "command",
             params := [(str "command", YVal.s (str "y"))] } none

/-- A playbook whose first task notifies reload with changed true and whose
second task fails, aborting the loop before the handler phase. -/
def pbNotifyAbort : Playbook :=
  { version := str "1.0", name := str "p", tasks := [taskNotify, taskSvcFail],
    handlers := [hReload] }

/-- The executor configuration for the notify-then-abort scenario. -/
def cfgNotify : ExecCfg := { cfgBase with unmarshal := fun _ => some pbNotifyAbort }

/-- C7 counterexample: in an execution that aborts on a later failed task,
a task completed with changed true and notified the reload handler, yet
the handler named reload never executes: the claimed iff fails for
executions that do not reach the handler phase. -/
theorem handler_fanout_counterexample :
    (execute cfgNotify spOk).1.status = str "failed" ∧
    ((execute cfgNotify spOk).1.taskResults.map (fun r => (r.status, r.changed))) =
      [(TaskStatus.completed, true), (TaskStatus.failed, false)] ∧
    taskNotify.core.notify = [str "reload"] ∧
    pbNotifyAbort.handlers.map (fun h => h.core.name) = [str "reload"] ∧
    ((execute cfgNotify spOk).1.taskResults.map (fun r => r.taskName)).contains (str "reload") =
      false ∧
    ((execute cfgNotify spOk).2.1.filter Ev.isHandlerExec).length = 1 := by
  decide

/-- C7 (amended): in every execution whose task loop runs to completion
(final report status completed), the report results are the loop results
followed by the handler-phase results, which are exactly the handlers
whose name is in the dirty set, in the textual order of the handlers list,
each entry executed once; and a name is dirty precisely when some task of
the loop completed with changed true and lists it in notify. -/
theorem handler_fanout_amended (cfg : ExecCfg) (sp : SignedPlaybook)
    (hstat : (execute cfg sp).1.status = str "completed") :
    ∃ (pb : Playbook) (st2 : LoopSt),
      parsePlaybook cfg.unmarshal (parserPlatformOf cfg.sys.goos) sp.content = .ok pb ∧
      taskLoop cfg pb.onError pb.tasks (initLoopSt cfg pb) = .done st2 ∧
      st2.results.length = pb.tasks.length ∧
      (execute cfg sp).1.taskResults =
        st2.results ++ (pb.handlers.filter (fun h => st2.notified.contains h.core.name)).map
          (fun h => (executeTask cfg h st2.vars).1) ∧
      (∀ n, n ∈ st2.notified ↔ ∃ p ∈ List.zip pb.tasks st2.results,
          p.2.status = TaskStatus.completed ∧ p.2.changed = true ∧ n ∈ p.1.core.notify) := by
  rcases hv : verify cfg.crypto cfg.serverPublicKey sp with ⟨vrec, _ | ve⟩
  · have hexec : execute cfg sp = executeVerified cfg sp
        { playbookID := sp.playbookID, deviceID := cfg.deviceID, status := str "pending",
          verification := vrec } := by
      unfold execute
      rw [hv]
    rw [hexec] at hstat ⊢
    rcases hp : parsePlaybook cfg.unmarshal (parserPlatformOf cfg.sys.goos) sp.content with pe | pb
    · have hst : (executeVerified cfg sp
          { playbookID := sp.playbookID, deviceID := cfg.deviceID, status := str "pending",
            verification := vrec }).1.status = str "failed" := by
        unfold executeVerified
        rw [hp]
      rw [hst] at hstat
      exact absurd hstat (by decide)
    · have hok : executeVerified cfg sp
          { playbookID := sp.playbookID, deviceID := cfg.deviceID, status := str "pending",
            verification := vrec } = executeParsed cfg
          { playbookID := sp.playbookID, deviceID := cfg.deviceID, status := str "pending",
            verification := vrec } pb := by
        unfold executeVerified
        rw [hp]
      rw [hok] at hstat ⊢
      by_cases hplat : pb.platforms ≠ [] ∧ ¬ pb.platforms.any (fun p => p == cfg.platform)
      · have hst : (executeParsed cfg
            { playbookID := sp.playbookID, deviceID := cfg.deviceID, status := str "pending",
              verification := vrec } pb).1.status = str "rejected" := by
          unfold executeParsed
          rw [if_pos hplat]
        rw [hst] at hstat
        exact absurd hstat (by decide)
      · rcases hl : taskLoop cfg pb.onError pb.tasks (initLoopSt cfg pb) with st | ⟨st, nm, em⟩ | st
        · have hst : (executeParsed cfg
              { playbookID := sp.playbookID, deviceID := cfg.deviceID, status := str "pending",
                verification := vrec } pb).1.status = str "cancelled" := by
            unfold executeParsed
            rw [if_neg hplat, hl]
          rw [hst] at hstat
          exact absurd hstat (by decide)
        · have hst : (executeParsed cfg
              { playbookID := sp.playbookID, deviceID := cfg.deviceID, status := str "pending",
                verification := vrec } pb).1.status = str "failed" := by
            unfold executeParsed
            rw [if_neg hplat, hl]
          rw [hst] at hstat
          exact absurd hstat (by decide)
        · have hd : executeParsed cfg
              { playbookID := sp.playbookID, deviceID := cfg.deviceID, status := str "pending",
                verification := vrec } pb = executeLoopDone cfg
              { playbookID := sp.playbookID, deviceID := cfg.deviceID, status := str "pending",
                verification := vrec } pb st := by
            unfold executeParsed
            rw [if_neg hplat, hl]
          rw [hd] at hstat ⊢
          obtain ⟨newRes, h1, h2, h3⟩ :=
            taskLoop_done_spec cfg pb.onError pb.tasks (initLoopSt cfg pb) st hl
          refine ⟨pb, st, rfl, hl, ?_, ?_, ?_⟩
          · rw [h1]
            simp [h2, initLoopSt]
          · unfold executeLoopDone
            rw [handlerLoop_results]
          · intro n
            rw [h3 n]
            have hinit : (initLoopSt cfg pb).notified = [] := rfl
            have hres0 : (initLoopSt cfg pb).results = [] := rfl
            rw [hinit]
            rw [h1, hres0]
            simp
  · exfalso
    have hst : (execute cfg sp).1.status = str "rejected" := by
      unfold execute
      rw [hv]
    rw [hst] at hstat
    exact absurd hstat (by decide)

/-- A playbook whose single task notifies the reload handler and whose
execution completes. -/
def pbNotifyOk : Playbook :=
  { version := str "1.0", name := str "p", tasks := [taskNotify],
    handlers := [hReload] }

/-- The executor configuration for the completing notify scenario. -/
def cfgNotifyOk : ExecCfg := { cfgBase with unmarshal := fun _ => some pbNotifyOk }

theorem handler_fanout_amended_witness :
    (execute cfgNotifyOk spOk).1.status = str "completed" ∧
    ∃ (pb : Playbook) (st2 : LoopSt),
      parsePlaybook cfgNotifyOk.unmarshal (parserPlatformOf cfgNotifyOk.sys.goos)
        spOk.content = .ok pb ∧
      taskLoop cfgNotifyOk pb.onError pb.tasks (initLoopSt cfgNotifyOk pb) = .done st2 ∧
      st2.results.length = pb.tasks.length ∧
      (execute cfgNotifyOk spOk).1.taskResults =
        st2.results ++ (pb.handlers.filter (fun h => st2.notified.contains h.core.name)).map
          (fun h => (executeTask cfgNotifyOk h st2.vars).1) ∧
      (∀ n, n ∈ st2.notified ↔ ∃ p ∈ List.zip pb.tasks st2.results,
          p.2.status = TaskStatus.completed ∧ p.2.changed = true ∧ n ∈ p.1.core.notify) :=
  ⟨by decide, handler_fanout_amended cfgNotifyOk spOk (by decide)⟩

/-!  ## C8: progress-callback discipline -/

/-- Shape of the retry-loop outcome: a success outcome has status completed
and its events are handler invocations followed by exactly one completed
progress notification; a cancelled-delay outcome has status failed and only
handler-invocation events; an exhausted outcome also has only
handler-invocation events (its failed progress notification is appended by
executeTask after the rollback, if any). -/
lemma attemptLoop_shape (c : Bool) (n : Str) (h : HandlerM) (p : Params) (d : Int) :
    ∀ (remaining attempt : Nat) (res0 : TaskResult) (le : Option Str),
      (∀ res, (attemptLoop c n h p d remaining attempt res0 le).1 = AttemptOut.success res →
        res.status = TaskStatus.completed ∧
        ∃ mid, (attemptLoop c n h p d remaining attempt res0 le).2 =
          mid ++ [Ev.progress n TaskStatus.completed] ∧ mid.all Ev.isHandlerExec = true) ∧
      (∀ res, (attemptLoop c n h p d remaining attempt res0 le).1 =
          AttemptOut.cancelledDelay res → res.status = TaskStatus.failed ∧
        (attemptLoop c n h p d remaining attempt res0 le).2.all Ev.isHandlerExec = true) ∧
      (∀ res le2, (attemptLoop c n h p d remaining attempt res0 le).1 =
          AttemptOut.exhausted res le2 →
        (attemptLoop c n h p d remaining attempt res0 le).2.all Ev.isHandlerExec = true) := by
  intro remaining
  induction remaining with
  | zero =>
    intro attempt res0 le
    exact ⟨fun res hres => AttemptOut.noConfusion hres,
           fun res hres => AttemptOut.noConfusion hres,
           fun res le2 _ => rfl⟩
  | succ m ih =>
    intro attempt res0 le
    simp only [attemptLoop]
    rcases hx : h.exec attempt p with ⟨oRes, oErr⟩
    rcases oRes with _ | er <;> rcases oErr with _ | ee <;> dsimp only
    · by_cases hg : m > 0 ∧ d > 0
      · rw [if_pos hg]
        by_cases hc : c
        · rw [if_pos hc]
          refine ⟨fun res hres => AttemptOut.noConfusion hres, fun res hres => ?_,
                  fun res le2 hres => AttemptOut.noConfusion hres⟩
          obtain rfl : _ = res := AttemptOut.cancelledDelay.inj hres
          exact ⟨rfl, rfl⟩
        · rw [if_neg hc]
          refine ⟨fun res hres => ?_, fun res hres => ?_, fun res le2 hres => ?_⟩
          · obtain ⟨hst, mid, hmid, hall⟩ := (ih (attempt + 1) _ _).1 res hres
            exact ⟨hst, Ev.handlerExec n attempt :: mid, by simp [hmid],
                   by rw [List.all_cons, hall]; rfl⟩
          · obtain ⟨hst, hall⟩ := (ih (attempt + 1) _ _).2.1 res hres
            exact ⟨hst, by rw [List.all_cons, hall]; rfl⟩
          · have hall := (ih (attempt + 1) _ _).2.2 res le2 hres
            rw [List.all_cons, hall]; rfl
      · rw [if_neg hg]
        refine ⟨fun res hres => ?_, fun res hres => ?_, fun res le2 hres => ?_⟩
        · obtain ⟨hst, mid, hmid, hall⟩ := (ih (attempt + 1) _ _).1 res hres
          exact ⟨hst, Ev.handlerExec n attempt :: mid, by simp [hmid],
                 by rw [List.all_cons, hall]; rfl⟩
        · obtain ⟨hst, hall⟩ := (ih (attempt + 1) _ _).2.1 res hres
          exact ⟨hst, by rw [List.all_cons, hall]; rfl⟩
        · have hall := (ih (attempt + 1) _ _).2.2 res le2 hres
          rw [List.all_cons, hall]; rfl
    · by_cases hg : m > 0 ∧ d > 0
      · rw [if_pos hg]
        by_cases hc : c
        · rw [if_pos hc]
          refine ⟨fun res hres => AttemptOut.noConfusion hres, fun res hres => ?_,
                  fun res le2 hres => AttemptOut.noConfusion hres⟩
          obtain rfl : _ = res := AttemptOut.cancelledDelay.inj hres
          exact ⟨rfl, rfl⟩
        · rw [if_neg hc]
          refine ⟨fun res hres => ?_, fun res hres => ?_, fun res le2 hres => ?_⟩
          · obtain ⟨hst, mid, hmid, hall⟩ := (ih (attempt + 1) _ _).1 res hres
            exact ⟨hst, Ev.handlerExec n attempt :: mid, by simp [hmid],
                   by rw [List.all_cons, hall]; rfl⟩
          · obtain ⟨hst, hall⟩ := (ih (attempt + 1) _ _).2.1 res hres
            exact ⟨hst, by rw [List.all_cons, hall]; rfl⟩
          · have hall := (ih (attempt + 1) _ _).2.2 res le2 hres
            rw [List.all_cons, hall]; rfl
      · rw [if_neg hg]
        refine ⟨fun res hres => ?_, fun res hres => ?_, fun res le2 hres => ?_⟩
        · obtain ⟨hst, mid, hmid, hall⟩ := (ih (attempt + 1) _ _).1 res hres
          exact ⟨hst, Ev.handlerExec n attempt :: mid, by simp [hmid],
                 by rw [List.all_cons, hall]; rfl⟩
        · obtain ⟨hst, hall⟩ := (ih (attempt + 1) _ _).2.1 res hres
          exact ⟨hst, by rw [List.all_cons, hall]; rfl⟩
        · have hall := (ih (attempt + 1) _ _).2.2 res le2 hres
          rw [List.all_cons, hall]; rfl
    · refine ⟨fun res hres => ?_, fun res hres => AttemptOut.noConfusion hres,
              fun res le2 hres => AttemptOut.noConfusion hres⟩
      obtain rfl : _ = res := AttemptOut.success.inj hres
      exact ⟨rfl, [Ev.handlerExec n attempt], rfl, rfl⟩
    · by_cases hg : m > 0 ∧ d > 0
      · rw [if_pos hg]
        by_cases hc : c
        · rw [if_pos hc]
          refine ⟨fun res hres => AttemptOut.noConfusion hres, fun res hres => ?_,
                  fun res le2 hres => AttemptOut.noConfusion hres⟩
          obtain rfl : _ = res := AttemptOut.cancelledDelay.inj hres
          exact ⟨rfl, rfl⟩
        · rw [if_neg hc]
          refine ⟨fun res hres => ?_, fun res hres => ?_, fun res le2 hres => ?_⟩
          · obtain ⟨hst, mid, hmid, hall⟩ := (ih (attempt + 1) _ _).1 res hres
            exact ⟨hst, Ev.handlerExec n attempt :: mid, by simp [hmid],
                   by rw [List.all_cons, hall]; rfl⟩
          · obtain ⟨hst, hall⟩ := (ih (attempt + 1) _ _).2.1 res hres
            exact ⟨hst, by rw [List.all_cons, hall]; rfl⟩
          · have hall := (ih (attempt + 1) _ _).2.2 res le2 hres
            rw [List.all_cons, hall]; rfl
      · rw [if_neg hg]
        refine ⟨fun res hres => ?_, fun res hres => ?_, fun res le2 hres => ?_⟩
        · obtain ⟨hst, mid, hmid, hall⟩ := (ih (attempt + 1) _ _).1 res hres
          exact ⟨hst, Ev.handlerExec n attempt :: mid, by simp [hmid],
                 by rw [List.all_cons, hall]; rfl⟩
        · obtain ⟨hst, hall⟩ := (ih (attempt + 1) _ _).2.1 res hres
          exact ⟨hst, by rw [List.all_cons, hall]; rfl⟩
        · have hall := (ih (attempt + 1) _ _).2.2 res le2 hres
          rw [List.all_cons, hall]; rfl

/-- A task whose platform filter names windows, run on the Linux executor. -/
def taskWinPlat : PTask :=
  PTask.mk { name := str "t", action := str "command", platform := str "windows",
             params := [] } none

/-- C8 counterexample: a task skipped by the platform filter produces the
running progress notification but no terminal notification at all — the
event list of executeTask is exactly the single running callback, refuting
the claimed one-running-one-terminal discipline on skipped tasks. -/
theorem task_progress_counterexample :
    (executeTask cfgBase taskWinPlat (newVariables sys0)).1.status = TaskStatus.skipped ∧
    (executeTask cfgBase taskWinPlat (newVariables sys0)).2 =
      [Ev.progress (str "t") TaskStatus.running] := by
  decide

/-- C8 (amended): executeTask reports the running notification first for
every processed task, and a terminal notification follows only on the
success path and on the retries-exhausted path.  In detail: a task that
ends skipped reports nothing beyond the single running notification; a
task whose condition evaluation errors, whose action has no registered
handler, whose handler does not support the host platform, or whose
parameter substitution fails likewise returns right after the running
notification with no terminal notification; a cancellation during the
retry delay produces no terminal notification either (only handler
invocations follow the running one); a completed task reports exactly one
terminal completed notification after its handler invocations; and a
retries-exhausted task reports exactly one terminal failed notification,
placed after its handler invocations and the events of its rollback task,
if any. -/
theorem task_progress_amended (cfg : ExecCfg) (t : PTask) (vars : Variables) :
    ((executeTask cfg t vars).2.head? =
      some (Ev.progress t.core.name TaskStatus.running)) ∧
    ((executeTask cfg t vars).1.status = TaskStatus.skipped →
      (executeTask cfg t vars).2 = [Ev.progress t.core.name TaskStatus.running]) ∧
    ((executeTask cfg t vars).1.status = TaskStatus.completed →
      ∃ mid, (executeTask cfg t vars).2 =
        Ev.progress t.core.name TaskStatus.running ::
          (mid ++ [Ev.progress t.core.name TaskStatus.completed]) ∧
        mid.all Ev.isHandlerExec = true) ∧
    (¬ (t.core.platform ≠ [] ∧ t.core.platform ≠ cfg.platform) →
      ∀ e, (if t.core.whenCond = [] then Except.ok true
        else evaluate { sys := cfg.sys, vars := vars } t.core.whenCond) = Except.error e →
      (executeTask cfg t vars).2 = [Ev.progress t.core.name TaskStatus.running]) ∧
    (¬ (t.core.platform ≠ [] ∧ t.core.platform ≠ cfg.platform) →
      (if t.core.whenCond = [] then Except.ok true
        else evaluate { sys := cfg.sys, vars := vars } t.core.whenCond) = Except.ok true →
      lookupA cfg.handlers t.core.action = none →
      (executeTask cfg t vars).2 = [Ev.progress t.core.name TaskStatus.running]) ∧
    (¬ (t.core.platform ≠ [] ∧ t.core.platform ≠ cfg.platform) →
      (if t.core.whenCond = [] then Except.ok true
        else evaluate { sys := cfg.sys, vars := vars } t.core.whenCond) = Except.ok true →
      ∀ h0, lookupA cfg.handlers t.core.action = some h0 →
      ¬ h0.supports.any (fun p => p == cfg.platform || p == str "all") = true →
      (executeTask cfg t vars).2 = [Ev.progress t.core.name TaskStatus.running]) ∧
    (¬ (t.core.platform ≠ [] ∧ t.core.platform ≠ cfg.platform) →
      (if t.core.whenCond = [] then Except.ok true
        else evaluate { sys := cfg.sys, vars := vars } t.core.whenCond) = Except.ok true →
      ∀ h0, lookupA cfg.handlers t.core.action = some h0 →
      h0.supports.any (fun p => p == cfg.platform || p == str "all") = true →
      ∀ er, substituteMap cfg.sys vars t.core.params = Except.error er →
      (executeTask cfg t vars).2 = [Ev.progress t.core.name TaskStatus.running]) ∧
    (¬ (t.core.platform ≠ [] ∧ t.core.platform ≠ cfg.platform) →
      (if t.core.whenCond = [] then Except.ok true
        else evaluate { sys := cfg.sys, vars := vars } t.core.whenCond) = Except.ok true →
      ∀ h0, lookupA cfg.handlers t.core.action = some h0 →
      h0.supports.any (fun p => p == cfg.platform || p == str "all") = true →
      ∀ params2, substituteMap cfg.sys vars t.core.params = Except.ok params2 →
      ∀ res, (attemptLoop cfg.cancelled t.core.name h0 params2 t.core.retryDelay
          (t.core.retries + 1).toNat 1
          { taskName := t.core.name, taskID := t.core.id, status := TaskStatus.pending }
          none).1 = AttemptOut.cancelledDelay res →
      ∃ mid, (executeTask cfg t vars).2 =
        Ev.progress t.core.name TaskStatus.running :: mid ∧
        mid.all Ev.isHandlerExec = true) ∧
    (¬ (t.core.platform ≠ [] ∧ t.core.platform ≠ cfg.platform) →
      (if t.core.whenCond = [] then Except.ok true
        else evaluate { sys := cfg.sys, vars := vars } t.core.whenCond) = Except.ok true →
      ∀ h0, lookupA cfg.handlers t.core.action = some h0 →
      h0.supports.any (fun p => p == cfg.platform || p == str "all") = true →
      ∀ params2, substituteMap cfg.sys vars t.core.params = Except.ok params2 →
      ∀ res le, (attemptLoop cfg.cancelled t.core.name h0 params2 t.core.retryDelay
          (t.core.retries + 1).toNat 1
          { taskName := t.core.name, taskID := t.core.id, status := TaskStatus.pending }
          none).1 = AttemptOut.exhausted res le →
      ∃ mid rbevs, (executeTask cfg t vars).2 =
        Ev.progress t.core.name TaskStatus.running ::
          ((mid ++ rbevs) ++ [Ev.progress t.core.name TaskStatus.failed]) ∧
        mid.all Ev.isHandlerExec = true ∧
        (t.rollback = none → rbevs = []) ∧
        (∀ rt, t.rollback = some rt → rbevs = (executeTask cfg rt vars).2)) := by
  rcases t with ⟨core, rb⟩
  simp only [PTask.core, PTask.rollback]
  have base :
      ((executeTask cfg (PTask.mk core rb) vars).2.head? =
        some (Ev.progress core.name TaskStatus.running)) ∧
      ((executeTask cfg (PTask.mk core rb) vars).1.status = TaskStatus.skipped →
        (executeTask cfg (PTask.mk core rb) vars).2 =
          [Ev.progress core.name TaskStatus.running]) ∧
      ((executeTask cfg (PTask.mk core rb) vars).1.status = TaskStatus.completed →
        ∃ mid, (executeTask cfg (PTask.mk core rb) vars).2 =
          Ev.progress core.name TaskStatus.running ::
            (mid ++ [Ev.progress core.name TaskStatus.completed]) ∧
          mid.all Ev.isHandlerExec = true) := by
    simp only [executeTask]
    split
    · exact ⟨rfl, fun _ => rfl, fun hc => by simp at hc⟩
    · split
      · exact ⟨rfl, fun hk => by simp at hk, fun hc => by simp at hc⟩
      · exact ⟨rfl, fun _ => rfl, fun hc => by simp at hc⟩
      · split
        · exact ⟨rfl, fun hk => by simp at hk, fun hc => by simp at hc⟩
        · rename_i h hh
          split
          · exact ⟨rfl, fun hk => by simp at hk, fun hc => by simp at hc⟩
          · split
            · exact ⟨rfl, fun hk => by simp at hk, fun hc => by simp at hc⟩
            · rename_i params hsub
              split
              · rename_i res hres
                obtain ⟨hst, mid, hmid, hall⟩ :=
                  (attemptLoop_shape cfg.cancelled core.name h params core.retryDelay
                    (core.retries + 1).toNat 1 _ none).1 res hres
                refine ⟨rfl, fun hk => absurd (hst.symm.trans hk) (by decide), fun _ => ?_⟩
                exact ⟨mid, by rw [hmid]; rfl, hall⟩
              · rename_i res hres
                obtain ⟨hst, _⟩ :=
                  (attemptLoop_shape cfg.cancelled core.name h params core.retryDelay
                    (core.retries + 1).toNat 1 _ none).2.1 res hres
                exact ⟨rfl, fun hk => absurd (hst.symm.trans hk) (by decide),
                       fun hc => absurd (hst.symm.trans hc) (by decide)⟩
              · rename_i res lastErr hres
                split
                · refine ⟨rfl, fun hk => ?_, fun hc => ?_⟩
                  · split at hk <;> simp at hk
                  · split at hc <;> simp at hc
                · exact ⟨rfl, fun hk => by simp at hk, fun hc => by simp at hc⟩
  refine ⟨base.1, base.2.1, base.2.2, ?_, ?_, ?_, ?_, ?_, ?_⟩
  · intro hnf e he
    simp only [executeTask, if_neg hnf, he]
  · intro hnf hcv hl
    simp only [executeTask, if_neg hnf, hcv, hl]
  · intro hnf hcv h0 hl hns
    simp only [executeTask, if_neg hnf, hcv, hl, if_pos hns]
  · intro hnf hcv h0 hl hsup er hse
    simp only [executeTask, if_neg hnf, hcv, hl, if_neg (not_not_intro hsup), hse]
  · intro hnf hcv h0 hl hsup params2 hok res hcd
    obtain ⟨hst, hall⟩ :=
      (attemptLoop_shape cfg.cancelled core.name h0 params2 core.retryDelay
        (core.retries + 1).toNat 1
        { taskName := core.name, taskID := core.id, status := TaskStatus.pending }
        none).2.1 res hcd
    refine ⟨(attemptLoop cfg.cancelled core.name h0 params2 core.retryDelay
        (core.retries + 1).toNat 1
        { taskName := core.name, taskID := core.id, status := TaskStatus.pending }
        none).2, ?_, hall⟩
    simp only [executeTask, if_neg hnf, hcv, hl, if_neg (not_not_intro hsup), hok, hcd,
      List.singleton_append]
  · intro hnf hcv h0 hl hsup params2 hok res le hex
    have hall :=
      (attemptLoop_shape cfg.cancelled core.name h0 params2 core.retryDelay
        (core.retries + 1).toNat 1
        { taskName := core.name, taskID := core.id, status := TaskStatus.pending }
        none).2.2 res le hex
    rcases rb with _ | rt
    · refine ⟨(attemptLoop cfg.cancelled core.name h0 params2 core.retryDelay
          (core.retries + 1).toNat 1
          { taskName := core.name, taskID := core.id, status := TaskStatus.pending }
          none).2, [], ?_, hall, fun _ => rfl, fun rt hrt => Option.noConfusion hrt⟩
      simp only [executeTask, if_neg hnf, hcv, hl, if_neg (not_not_intro hsup), hok, hex,
        List.append_nil, List.append_assoc, List.singleton_append, List.cons_append]
      rfl
    · refine ⟨(attemptLoop cfg.cancelled core.name h0 params2 core.retryDelay
          (core.retries + 1).toNat 1
          { taskName := core.name, taskID := core.id, status := TaskStatus.pending }
          none).2, (executeTask cfg rt vars).2, ?_, hall,
          fun hno => Option.noConfusion hno,
          fun rt2 hrt2 => by cases Option.some.inj hrt2; rfl⟩
      simp only [executeTask, if_neg hnf, hcv, hl, if_neg (not_not_intro hsup), hok, hex,
        List.append_assoc, List.singleton_append, List.cons_append]
      rfl

theorem task_progress_amended_witness :
    (executeTask cfgBase taskCmd (newVariables sys0)).1.status = TaskStatus.completed ∧
    ∃ mid, (executeTask cfgBase taskCmd (newVariables sys0)).2 =
      Ev.progress taskCmd.core.name TaskStatus.running ::
        (mid ++ [Ev.progress taskCmd.core.name TaskStatus.completed]) ∧
      mid.all Ev.isHandlerExec = true :=
  ⟨by decide, (task_progress_amended cfgBase taskCmd (newVariables sys0)).2.2.1 (by decide)⟩
/-!  ## C9: the command action handler -/

/-- Outcome of one os/exec Run call, abstracted: captured output, the
returned error (none for success, some (some code) for an ExitError with
that exit code, some none for any other error), and whether the timeout
context expired. -/
structure RunOut where
  stdout : Str := []
  stderr : Str := []
  runError : Option (Option Int) := none
  deadlineExceeded : Bool := false
deriving DecidableEq, Repr

/-- The OS facade of the command handler: spawning a shell process (shell,
argument vector, working directory, extra environment pairs, timeout in
seconds) and the fileExists probe. -/
structure CmdEnv where
  run : Str → List Str → Str → List (Str × Str) → Int → RunOut
  fileExists : Str → Bool

/-- Go time.Duration String rendering of a whole number of seconds. -/
def durGoFmt (t : Int) : Str :=
  let s := t % 60
  let m := (t / 60) % 60
  let h := t / 3600
  if h > 0 then intToStr h ++ str "h" ++ intToStr m ++ str "m" ++ intToStr s ++ str "s"
  else if m > 0 then intToStr m ++ str "m" ++ intToStr s ++ str "s"
  else intToStr s ++ str "s"

/-- CommandHandler.Execute: parameter extraction, platform and custom shell
selection, the unconditional cmd.Run, error classification (timeout,
fail_on_error), and the after-the-run creates idempotency check.  Alongside
the Go (result, error) pair, the list of spawned commands (shell, argv,
workdir) is returned for observability. -/
def commandExecute (goos : Str) (env : CmdEnv) (params : Params) :
    (Option TaskResult × Option Str) × List (Str × List Str × Str) :=
  let result0 : TaskResult := { status := TaskStatus.running }
  let cmdStrO : Option Str := match lookupA params (str "command") with
    | some (YVal.s s) => some s
    | _ => none
  match cmdStrO with
  | none => ((none, some (str "command parameter must be a non-empty string")), [])
  | some cmdStr =>
    if cmdStr = [] then
      ((none, some (str "command parameter must be a non-empty string")), [])
    else
      let workDir : Str := match lookupA params (str "chdir") with
        | some (YVal.s wd) => wd
        | _ => []
      let shellReq : Str := match lookupA params (str "shell") with
        | some (YVal.s s) => s
        | _ => []
      let timeoutSecs : Int :=
        match lookupA params (str "timeout") with
        | some (YVal.i t) => if 0 < t then t else 300
        | some (YVal.f num den) => if 0 < num then num / (den : Int) else 300
        | _ => 300
      let sa : Str × List Str :=
        if shellReq = [] then
          if goos = str "windows" then (str "cmd", [str "/C"])
          else (str "/bin/sh", [str "-c"])
        else if shellReq = str "powershell" ∨ shellReq = str "pwsh" then
          (str "powershell", [str "-NoProfile", str "-NonInteractive", str "-Command"])
        else if shellReq = str "bash" then (str "/bin/bash", [str "-c"])
        else if shellReq = str "cmd" then (str "cmd", [str "/C"])
        else (shellReq, [str "-c"])
      let cmdArgs := sa.2 ++ [cmdStr]
      let envPairs : List (Str × Str) :=
        match lookupA params (str "environment") with
        | some (YVal.obj fields) =>
          fields.filterMap (fun kv => match kv.2 with
            | YVal.s v => some (kv.1, v)
            | _ => none)
        | _ => []
      let out := env.run sa.1 cmdArgs workDir envPairs timeoutSecs
      let trace := [(sa.1, cmdArgs, workDir)]
      let res1 := { result0 with
        stdout := trimSpace out.stdout
        stderr := trimSpace out.stderr }
      match out.runError with
      | some ec =>
        let res2 := { res1 with exitCode := match ec with | some c => c | none => -1 }
        if out.deadlineExceeded then
          ((some res2, some (str "command timed out after " ++ durGoFmt timeoutSecs)), trace)
        else
          match lookupA params (str "fail_on_error") with
          | some (YVal.b false) =>
            ((some { res2 with status := TaskStatus.completed, changed := true }, none), trace)
          | _ =>
            ((some res2, some (str "command failed with exit code " ++ intToStr res2.exitCode ++
              str ": " ++ res2.stderr)), trace)
      | none =>
        let res2 := { res1 with
          exitCode := 0
          status := TaskStatus.completed
          changed := true }
        match lookupA params (str "creates") with
        | some (YVal.s creates) =>
          if creates ≠ [] ∧ env.fileExists creates then
            ((some { res2 with
               changed := false
               message := str "Skipped: " ++ quoteCh ++ creates ++ quoteCh ++
                 str " already exists" }, none), trace)
          else ((some res2, none), trace)
        | _ => ((some res2, none), trace)

/-- C9 is a code bug: with a creates path that exists and a successful run,
the command handler still spawns the shell command (the trace is the
non-empty singleton of the spawned command) and only afterwards reports
changed=false with the Skipped message — the claim says the shell command
is not executed at all. -/
theorem command_creates_code_bug (env : CmdEnv) (cmdS createsS : Str)
    (hcmd : cmdS ≠ []) (hcre : createsS ≠ [])
    (hex : env.fileExists createsS = true)
    (hrun : ∀ sh args dir ep t, (env.run sh args dir ep t).runError = none) :
    (commandExecute (str "linux") env
      [(str "command", YVal.s cmdS), (str "creates", YVal.s createsS)]).2 =
      [(str "/bin/sh", ([str "-c", cmdS] : List Str), ([] : Str))] ∧
    ∃ res, (commandExecute (str "linux") env
      [(str "command", YVal.s cmdS), (str "creates", YVal.s createsS)]).1 = (some res, none) ∧
      res.changed = false ∧ res.status = TaskStatus.completed ∧
      res.message = str "Skipped: " ++ quoteCh ++ createsS ++ quoteCh ++
        str " already exists" := by
  have l1 : lookupA [(str "command", YVal.s cmdS), (str "creates", YVal.s createsS)]
      (str "command") = some (YVal.s cmdS) := rfl
  have l2 : lookupA [(str "command", YVal.s cmdS), (str "creates", YVal.s createsS)]
      (str "chdir") = none := rfl
  have l3 : lookupA [(str "command", YVal.s cmdS), (str "creates", YVal.s createsS)]
      (str "shell") = none := rfl
  have l4 : lookupA [(str "command", YVal.s cmdS), (str "creates", YVal.s createsS)]
      (str "timeout") = none := rfl
  have l5 : lookupA [(str "command", YVal.s cmdS), (str "creates", YVal.s createsS)]
      (str "environment") = none := rfl
  have l7 : lookupA [(str "command", YVal.s cmdS), (str "creates", YVal.s createsS)]
      (str "creates") = some (YVal.s createsS) := rfl
  simp only [commandExecute, l1, l2, l3, l4, l5, l7]
  rw [if_neg hcmd]
  rw [hrun]
  simp only [l7]
  rw [if_pos ⟨hcre, hex⟩]
  exact ⟨rfl, _, rfl, rfl, rfl, rfl⟩

/-- A command environment whose every run succeeds and whose fileExists is
constantly true. -/
def cmdEnvProbe : CmdEnv :=
  { run := fun _ _ _ _ _ => { stdout := str "ran" }
    fileExists := fun _ => true }

theorem command_creates_code_bug_witness :
    (commandExecute (str "linux") cmdEnvProbe
      [(str "command", YVal.s (str "touch f")), (str "creates", YVal.s (str "f"))]).2 =
      [(str "/bin/sh", ([str "-c", str "touch f"] : List Str), ([] : Str))] ∧
    ∃ res, (commandExecute (str "linux") cmdEnvProbe
      [(str "command", YVal.s (str "touch f")), (str "creates", YVal.s (str "f"))]).1 =
        (some res, none) ∧
      res.changed = false ∧ res.status = TaskStatus.completed ∧
      res.message = str "Skipped: " ++ quoteCh ++ str "f" ++ quoteCh ++
        str " already exists" :=
  command_creates_code_bug cmdEnvProbe (str "touch f") (str "f")
    (by decide) (by decide) rfl (fun _ _ _ _ _ => rfl)
